import Mathlib

/-!
# Verification of the import/export and date-reconciliation core

Shallow embedding of the data import/export subsystem of the
calendar application (`src/services/dataService.ts`,
`src/components/CalendarCanvas.tsx`), together with proofs checking the
specification's claims about it.

Modelling conventions:
* JavaScript strings are Lean `String`s; character-level loops of the
  source are re-implemented as structural recursions on `List Char`.
* JavaScript string truthiness (`s || d`) is modelled by `jsOr`:
  `undefined`/absent and the empty string are falsy.
* The runtime timezone is fixed to UTC, so a `Date` holding a parsed
  calendar day formats back to the same calendar day.
* Calendar dates are `SimpleDate` records; `Date` timestamp comparison
  (`isAfter`, `isWithinInterval`, `<=` on dates) is modelled by `dateKey`,
  which agrees with timestamp order on calendar-valid dates (the only
  dates the theorems compare).
-/

/-- JavaScript `a || d` for a possibly-absent string: `undefined` and the
empty string are falsy. -/
def jsOr : Option String → String → String
  | none, d => d
  | some s, d => if s = "" then d else s

/-- Does the character list starting here begin with the pattern? -/
def charsStartWith : List Char → List Char → Bool
  | _, [] => true
  | [], _ :: _ => false
  | a :: as, b :: bs => a == b && charsStartWith as bs

/-- Naive substring search on character lists. -/
def charsContain (pat : List Char) : List Char → Bool
  | [] => pat.isEmpty
  | c :: rest => charsStartWith (c :: rest) pat || charsContain pat rest

/-- JavaScript `s.includes(sub)`. -/
def strIncludes (s sub : String) : Bool :=
  charsContain sub.toList s.toList

/-- JavaScript `s.toLowerCase()` (ASCII range, which covers the header and
keyword matching done by the source). -/
def strToLower (s : String) : String :=
  String.mk (s.toList.map Char.toLower)

/-- JavaScript `s.trim()` (the source only ever trims ASCII whitespace). -/
def jsTrim (s : String) : String :=
  String.mk (((s.toList.dropWhile Char.isWhitespace).reverse.dropWhile
    Char.isWhitespace).reverse)

/-- Accumulate the value of a maximal leading run of decimal digits. -/
def takeDigitsVal : List Char → Nat → Nat
  | [], acc => acc
  | c :: rest, acc =>
    if c.isDigit then takeDigitsVal rest (acc * 10 + (c.toNat - 48)) else acc

/-- Numeric value of a decimal-digit string. -/
def natVal (s : String) : Nat :=
  takeDigitsVal s.toList 0

/-- Is the string a non-empty run of decimal digits? -/
def isAllDigits (s : String) : Bool :=
  !s.toList.isEmpty && s.toList.all Char.isDigit

/-- JavaScript `parseInt(p, 10)` (`none` is `NaN`) as it applies to the
pieces of a date string split on `/`, `-` or `.`: leading whitespace is
skipped, an optional `+` sign is allowed (a `-` can never occur inside a
piece, being itself a separator), then a maximal digit prefix is read. -/
def jsParseInt (s : String) : Option Nat :=
  let t0 := s.toList.dropWhile Char.isWhitespace
  let t := if t0.head? = some '+' then t0.tail else t0
  match t with
  | [] => none
  | c :: rest => if c.isDigit then some (takeDigitsVal (c :: rest) 0) else none

/-- JavaScript `Number(p)` on the pieces of a `yyyy-MM-dd` string: the
empty string is `0`, a digit run is its value, anything else is `NaN`
(`none`). -/
def jsNumberNat (s : String) : Option Nat :=
  let t := jsTrim s
  if t = "" then some 0
  else if isAllDigits t then some (natVal t) else none

/-- Split on every occurrence of one separator character, keeping empty
pieces, like JavaScript `s.split(sep)`. -/
def splitCharAux (isSep : Char → Bool) : List Char → List Char → List String
  | [], acc => [String.mk acc.reverse]
  | c :: rest, acc =>
    if isSep c then String.mk acc.reverse :: splitCharAux isSep rest []
    else splitCharAux isSep rest (c :: acc)

/-- JavaScript `s.split('-')`. -/
def splitOnDash (s : String) : List String :=
  splitCharAux (fun c => c = '-') s.toList []

/-- JavaScript `s.split(/[\/\-\.]/)`. -/
def splitDateSeps (s : String) : List String :=
  splitCharAux (fun c => c = '/' || c = '-' || c = '.') s.toList []

/-- JavaScript `s.split(/\r?\n/)`. -/
def splitLinesAux : List Char → List Char → List String
  | [], acc => [String.mk acc.reverse]
  | '\r' :: '\n' :: rest, acc => String.mk acc.reverse :: splitLinesAux rest []
  | '\n' :: rest, acc => String.mk acc.reverse :: splitLinesAux rest []
  | c :: rest, acc => splitLinesAux rest (c :: acc)

/-- Split a document into lines on any line-ending convention. -/
def splitLines (s : String) : List String :=
  splitLinesAux s.toList []

/-- Decimal digit character. -/
def digitChar (n : Nat) : Char :=
  Char.ofNat (48 + n)

/-- Decimal digits of a number, most significant first (`fuel` bounds the
recursion depth so that the definition is structurally recursive and
kernel-reducible; `natToChars` always supplies enough fuel). -/
def natToCharsFuel : Nat → Nat → List Char
  | 0, _ => []
  | fuel + 1, n =>
    if n < 10 then [digitChar n]
    else natToCharsFuel fuel (n / 10) ++ [digitChar (n % 10)]

/-- Decimal digits of a number, most significant first. -/
def natToChars (n : Nat) : List Char :=
  natToCharsFuel (n + 1) n

/-- Decimal rendering of a number. -/
def natToString (n : Nat) : String :=
  String.mk (natToChars n)

/-- Two-digit zero padding, as in the `MM` / `dd` format tokens. -/
def pad2 (n : Nat) : String :=
  if n < 10 then String.mk ['0', digitChar n] else natToString n

/-- Four-digit zero padding, as in the `yyyy` format token. -/
def pad4 (n : Nat) : String :=
  if n < 10 then String.mk ['0', '0', '0', digitChar n]
  else if n < 100 then String.mk ['0', '0'] ++ natToString n
  else if n < 1000 then String.mk ['0'] ++ natToString n
  else natToString n

/-- A calendar date as year/month/day, with no time component. -/
structure SimpleDate where
  year : Nat
  month : Nat
  day : Nat
deriving DecidableEq, Repr

/-- Proleptic Gregorian leap-year rule, as used by the JavaScript `Date`. -/
def isLeapYear (y : Nat) : Bool :=
  y % 4 = 0 && (y % 100 != 0 || y % 400 = 0)

/-- Number of days of a month (only meaningful for months 1..12). -/
def daysInMonth (y m : Nat) : Nat :=
  if m = 2 then (if isLeapYear y then 29 else 28)
  else if m = 4 || m = 6 || m = 9 || m = 11 then 30
  else 31

/-- Do year/month/day form a real calendar date? -/
def validDate (y m d : Nat) : Bool :=
  1 ≤ m && m ≤ 12 && 1 ≤ d && d ≤ daysInMonth y m

/-- Injective key whose order agrees with `Date` timestamp order on
calendar-valid dates (month below 16, day below 32). -/
def dateKey (d : SimpleDate) : Nat :=
  d.year * 512 + d.month * 32 + d.day

/-- Timestamp comparison `a <= b` of two parsed dates. -/
def dateLe (a b : SimpleDate) : Bool :=
  dateKey a ≤ dateKey b

/-- Timestamp comparison `a < b`; date-fns `isAfter(x, y)` is
`dateLt y x`. -/
def dateLt (a b : SimpleDate) : Bool :=
  dateKey a < dateKey b

/-- date-fns `format(d, 'yyyy-MM-dd')` (UTC model: the local calendar day
is the stored calendar day). -/
def formatDate (d : SimpleDate) : String :=
  pad4 d.year ++ "-" ++ pad2 d.month ++ "-" ++ pad2 d.day

/-- `parseSafeDate` of `CalendarCanvas.tsx`: split a `yyyy-MM-dd` string
on `-`, convert the first three pieces with `Number`, and build
`new Date(year, month - 1, day)`. `none` is an invalid date (a `NaN`
component). Years 0..99 are remapped by the `Date` constructor to
1900..1999; component normalization (day or month out of range) is outside
the modelled input class, and the theorems using this function carry
calendar-validity hypotheses. -/
def parseSafeDate (s : String) : Option SimpleDate :=
  match (splitOnDash s).map jsNumberNat with
  | some y :: some m :: some d :: _ =>
    some ⟨if y ≤ 99 then 1900 + y else y, m, d⟩
  | _ => none

/-- Two-digit-year remapping applied by JavaScript engines to legacy date
strings. -/
def jsYearMap (y : Nat) : Nat :=
  if y ≤ 49 then 2000 + y else if y ≤ 99 then 1900 + y else y

/-- Model of the `new Date(string)` constructor, restricted to strings
made of exactly three integer parts separated by `/`, `-` or `.` — the
only date-string shapes the import claims quantify over. This is the
behavior shared by the major engines: a first part above 31 is read as the
year (which covers ISO `YYYY-MM-DD`), otherwise the string is read as
month/day/year; two-digit years are remapped to 19xx/20xx; out-of-range
components give an invalid date rather than rolling over. Strings outside
this shape (month names, time suffixes, ...) are modelled as
unparseable. -/
def jsDateFromParts (p1 p2 p3 : Nat) : Option SimpleDate :=
  if 31 < p1 then
    if 1 ≤ p2 && p2 ≤ 12 && 1 ≤ p3 && p3 ≤ daysInMonth (jsYearMap p1) p2 then
      some ⟨jsYearMap p1, p2, p3⟩
    else none
  else if 1 ≤ p1 && p1 ≤ 12 then
    if 1 ≤ p2 && p2 ≤ daysInMonth (jsYearMap p3) p1 then some ⟨jsYearMap p3, p1, p2⟩
    else none
  else none

/-- String front end of the engine date parse: three digit-run parts give
`jsDateFromParts`; anything else is invalid. -/
def jsDateFromString (s : String) : Option SimpleDate :=
  match splitDateSeps s with
  | [a, b, c] =>
    if isAllDigits a && isAllDigits b && isAllDigits c then
      jsDateFromParts (natVal a) (natVal b) (natVal c)
    else none
  | _ => none

/-- The day/month/year resolution heuristic of
`ImportService.parseFlexibleDate` (its manual branch), on the three
numeric parts: returns `(year, month, day)`. -/
def manualResolve (p1 p2 p3 : Nat) : Option (Nat × Nat × Nat) :=
  if 1000 < p1 then some (p1, p2, p3)
  else if 1000 < p3 then
    if 12 < p1 then some (p3, p2, p1)
    else if 12 < p2 then some (p3, p1, p2)
    else some (p3, p2, p1)
  else none

/-- Final validation of `parseFlexibleDate`: rebuild
`new Date(year, month - 1, day)` and check that the components round-trip
exactly. The `Date` constructor rolls out-of-range components over and
remaps years 0..99 to 1900..1999, so the round-trip succeeds exactly for
calendar-valid components with a year of at least 100. -/
def mkDateRoundTrips (y m d : Nat) : Bool :=
  100 ≤ y && validDate y m d

/-- The manual branch of `parseFlexibleDate` on the three `parseInt`
parts: resolve day/month order heuristically, then validate by
round-tripping the components. -/
def manualFromParts (p1 p2 p3 : Nat) : Option SimpleDate :=
  match manualResolve p1 p2 p3 with
  | some (y, m, d) => if mkDateRoundTrips y m d then some ⟨y, m, d⟩ else none
  | none => none

/-- `parseFlexibleDate` restricted to the three numeric parts of the
input: the direct engine parse, accepted only with a year above 1000,
with the manual branch as fallback. -/
def parseFlexibleParts (p1 p2 p3 : Nat) : Option SimpleDate :=
  match (match jsDateFromParts p1 p2 p3 with
    | some d => if 1000 < d.year then some d else none
    | none => none) with
  | some d => some d
  | none => manualFromParts p1 p2 p3

/-- `ImportService.parseFlexibleDate`: trim; try the direct `new Date`
parse, accepted only with a year above 1000; otherwise split on
`/`, `-` or `.` into exactly three `parseInt` parts, resolve day/month
order heuristically, and validate by round-tripping the components. -/
def parseFlexibleDate (input : String) : Option SimpleDate :=
  let clean := jsTrim input
  if clean = "" then none
  else
    let direct : Option SimpleDate :=
      match jsDateFromString clean with
      | some d => if 1000 < d.year then some d else none
      | none => none
    match direct with
    | some d => some d
    | none =>
      match (splitDateSeps clean).map jsParseInt with
      | [some p1, some p2, some p3] => manualFromParts p1 p2 p3
      | _ => none

/-- `ProgramType` of `types.ts`. -/
inductive ProgramType
  | orquesta
  | coro
  | coroInfantil
  | coroJuvenil
  | general
deriving DecidableEq, Repr

/-- The string stored for each program value. -/
def programToString : ProgramType → String
  | .orquesta => "Orquesta"
  | .coro => "Coro"
  | .coroInfantil => "Coro Infantil"
  | .coroJuvenil => "Coro Juvenil"
  | .general => "General"

/-- `ActivityStatus` of `types.ts`. -/
inductive ActivityStatus
  | active
  | postponed
  | suspended
deriving DecidableEq, Repr

/-- The string stored for each status value. -/
def statusToString : ActivityStatus → String
  | .active => "active"
  | .postponed => "postponed"
  | .suspended => "suspended"

/-- `validateProgram` of `dataService.ts`: case-insensitive substring
matching of the keyword table, in source order, defaulting to
`General`. -/
def validateProgram (val : Option String) : ProgramType :=
  let v := strToLower (jsOr val "")
  if strIncludes v "orq" then .orquesta
  else if strIncludes v "coro inf" then .coroInfantil
  else if strIncludes v "coro juv" then .coroJuvenil
  else if strIncludes v "coro" then .coro
  else .general

/-- `validateStatus` of `dataService.ts`. -/
def validateStatus (val : Option String) : ActivityStatus :=
  let v := strToLower (jsOr val "")
  if strIncludes v "post" then .postponed
  else if strIncludes v "susp" then .suspended
  else .active

/-- `Category` of `types.ts`. -/
structure Category where
  id : String
  name : String
  color : String
deriving DecidableEq, Repr

/-- `ActivityRange` of `types.ts` (the fields touched by import/export;
the bookkeeping fields `rescheduledToId` / `originalActivityId`, which the
import/export code neither reads nor writes, are elided). Optional fields
are `Option`s; `none` is an absent (`undefined`) field. -/
structure ActivityRange where
  id : String
  title : String
  startDate : String
  endDate : String
  color : String
  program : ProgramType
  categoryId : Option String
  status : Option ActivityStatus
  completed : Option Bool
  description : Option String
deriving DecidableEq, Repr

/-- `DayStyle` of `types.ts` (fields the reconciler reads; the purely
visual fields are elided). -/
structure DayStyle where
  id : String
  startDate : String
  endDate : Option String
  isHoliday : Option Bool
deriving DecidableEq, Repr

/-- `CalendarConfig` of `types.ts` (fields irrelevant to the claims are
elided; the import/export code only passes the config through). -/
structure CalendarConfig where
  year : Nat
  institutionName : String
deriving DecidableEq, Repr

/-- `CalendarState` of `types.ts`. -/
structure CalendarState where
  config : CalendarConfig
  categories : List Category
  activities : List ActivityRange
  dayStyles : List DayStyle
deriving DecidableEq, Repr

/-- Close the field being accumulated (characters held in reverse order):
`result.push(current.trim())`. -/
def mkField (cur : List Char) : String :=
  jsTrim (String.mk cur.reverse)

/-- Character scan of `ImportService.parseCSVLine`: `inQ` is the
`inQuotes` flag, `cur` the current field in reverse, `acc` the fields
already emitted in reverse order. A `"` toggles the flag unless it is
immediately followed by another `"` while inside quotes, which emits one
literal `"` and skips both; the delimiter splits only outside quotes. -/
def csvAux (delim : Char) : List Char → Bool → List Char → List String → List String
  | [], _, cur, acc => (mkField cur :: acc).reverse
  | '"' :: '"' :: rest, true, cur, acc => csvAux delim rest true ('"' :: cur) acc
  | '"' :: rest, true, cur, acc => csvAux delim rest false cur acc
  | '"' :: rest, false, cur, acc => csvAux delim rest true cur acc
  | c :: rest, inQ, cur, acc =>
    if c = delim ∧ inQ = false then csvAux delim rest inQ [] (mkField cur :: acc)
    else csvAux delim rest inQ (c :: cur) acc

/-- `ImportService.parseCSVLine`. -/
def parseCSVLine (line : String) (delim : Char) : List String :=
  csvAux delim line.toList false [] []

/-- Double every `"`, as in `.replace(/"/g, '""')`. -/
def escChars : List Char → List Char
  | [] => []
  | c :: rest => if c = '"' then '"' :: '"' :: escChars rest else c :: escChars rest

/-- Wrap a field value in double quotes with internal quotes doubled, the
quoting applied by `ExportService.toCSV` to the free-text columns. -/
def quoteField (f : String) : String :=
  String.mk ('"' :: escChars f.toList ++ ['"'])

/-- JavaScript `Array.prototype.join` with a one-character separator. -/
def joinDelim (d : Char) : List String → String
  | [] => ""
  | [f] => f
  | f :: g :: rest => f ++ String.mk [d] ++ joinDelim d (g :: rest)

/-- The `categoryName` column value of a row:
`state.categories.find(c => c.id === activity.categoryId)?.name || ''`. -/
def categoryNameOf (state : CalendarState) (a : ActivityRange) : String :=
  match a.categoryId with
  | none => ""
  | some cid => jsOr ((state.categories.find? (fun c => c.id == cid)).map Category.name) ""

/-- One data row of `ExportService.toCSV`: only the `title`,
`categoryName` and `description` columns go through the quoting. -/
def csvRow (state : CalendarState) (a : ActivityRange) : String :=
  joinDelim ',' [
    a.id,
    quoteField (jsOr (some a.title) ""),
    a.startDate,
    a.endDate,
    programToString a.program,
    jsOr a.categoryId "",
    quoteField (categoryNameOf state a),
    statusToString (a.status.getD .active),
    (if a.completed.getD false then "true" else "false"),
    quoteField (jsOr a.description "")]

/-- The fixed header row of `ExportService.toCSV`. -/
def csvHeader : String :=
  "id,title,startDate,endDate,program,categoryId,categoryName,status,completed,description"

/-- `ExportService.toCSV`. -/
def toCSV (state : CalendarState) : String :=
  joinDelim '\n' (csvHeader :: state.activities.map (csvRow state))

/-- The partial state carried by a successful `ImportResult`
(`data?: Partial<CalendarState>`): each absent field is `none`. -/
structure ImportData where
  config : Option CalendarConfig := none
  categories : Option (List Category) := none
  activities : List ActivityRange := []
  dayStyles : Option (List DayStyle) := none
deriving DecidableEq, Repr

/-- `ImportResult` of `dataService.ts`. -/
structure ImportResult where
  success : Bool
  message : String
  data : Option ImportData := none
  warnings : Option (List String) := none
  errors : Option (List String) := none
deriving DecidableEq, Repr

/-- A raw activity record of a parsed JSON document, as far as
`sanitizeActivity` reads it: every field may be absent. Non-string JSON
values in the string fields are outside the modelled input class. -/
structure RawActivity where
  id : Option String := none
  title : Option String := none
  startDate : Option String := none
  endDate : Option String := none
  color : Option String := none
  program : Option String := none
  categoryId : Option String := none
  status : Option String := none
  completed : Option Bool := none
  description : Option String := none
deriving DecidableEq, Repr

/-- `sanitizeActivity` of `dataService.ts`. The generated id
(`Math.random().toString(36).substr(2, 9)`) and today's date
(`format(new Date(), 'yyyy-MM-dd')`) are environment inputs, passed as
the `freshId` and `today` parameters. -/
def sanitizeActivity (freshId today : String) (a : RawActivity) : ActivityRange :=
  let startDate := jsOr a.startDate today
  { id := jsOr a.id freshId
    title := jsOr a.title "Sin título"
    startDate := startDate
    endDate := jsOr a.endDate startDate
    color := jsOr a.color "#3b82f6"
    program := validateProgram a.program
    categoryId := a.categoryId
    status := some (validateStatus a.status)
    completed := some (a.completed.getD false)
    description := some (jsOr a.description "") }

/-- A parsed JSON document, as far as `ImportService.fromJSON` reads it:
the optional `config` / `categories` / `activities` / `dayStyles` keys.
`none` is an absent key (an absent or empty array are distinguished,
since an empty array is truthy in the `!data.activities` guard). -/
structure JsonDoc where
  config : Option CalendarConfig := none
  categories : Option (List Category) := none
  activities : Option (List RawActivity) := none
  dayStyles : Option (List DayStyle) := none
deriving DecidableEq, Repr

/-- The result of `JSON.parse` on an import document: the top-level
object together with its optional `data` wrapper
(`const data = parsed.data || parsed`). -/
structure ParsedJson where
  data : Option JsonDoc := none
  top : JsonDoc
deriving DecidableEq, Repr

/-- `ImportService.fromJSON`, taken after `JSON.parse`: `none` input is a
parse exception (the `catch` branch). Fresh activity ids are drawn from
`freshIds` by position. -/
def fromJSON (freshIds : Nat → String) (today : String)
    (parsed : Option ParsedJson) (_existingCategories : List Category) : ImportResult :=
  match parsed with
  | none =>
    { success := false
      message := "Error al parsear el archivo JSON."
      errors := some ["<exception message>"] }
  | some pj =>
    let data := pj.data.getD pj.top
    if data.activities = none ∧ data.categories = none then
      { success := false
        message := "JSON sin datos de actividades o categorías válidos." }
    else
      let activities :=
        (data.activities.getD []).mapIdx (fun i a => sanitizeActivity (freshIds i) today a)
      { success := true
        message := "JSON procesado: " ++ natToString activities.length ++ " actividades encontradas."
        data := some
          { config := data.config
            categories := some (data.categories.getD [])
            activities := activities
            dayStyles := some (data.dayStyles.getD []) } }

/-- The serialized form of a state activity as it reappears after
`JSON.parse(ExportService.toJSON(state))`: `JSON.stringify` drops
`undefined` (absent optional) fields, so the round trip through the JSON
text is the identity on this record. -/
def rawOfActivity (a : ActivityRange) : RawActivity :=
  { id := some a.id
    title := some a.title
    startDate := some a.startDate
    endDate := some a.endDate
    color := some a.color
    program := some (programToString a.program)
    categoryId := a.categoryId
    status := a.status.map statusToString
    completed := a.completed
    description := a.description }

/-- `JSON.parse` applied to the output of `ExportService.toJSON`: a
versioned envelope whose top level carries only `version`, `application`
and `exportDate` (neither `activities` nor `categories`), with the state
under the `data` key. -/
def toJSONParsed (state : CalendarState) : ParsedJson :=
  { data := some
      { config := some state.config
        categories := some state.categories
        activities := some (state.activities.map rawOfActivity)
        dayStyles := some state.dayStyles }
    top := {} }

/-- Serializing a state and importing the result back
(`ImportService.fromJSON (ExportService.toJSON state)`). -/
def jsonRoundTrip (freshIds : Nat → String) (today : String)
    (state : CalendarState) : ImportResult :=
  fromJSON freshIds today (some (toJSONParsed state)) state.categories

/-- The activity list of a result (empty when `data` is absent). -/
def importedActivities (r : ImportResult) : List ActivityRange :=
  (r.data.map ImportData.activities).getD []

/-- `row[i]` collapsed through the `|| ''` that follows each access in
`fromCSV` (an out-of-range access is `undefined`, hence `''`). -/
def rowField (row : List String) (i : Nat) : String :=
  (row[i]?).getD ""

/-- Column resolution and delimiter of a CSV import, fixed by the header
row. -/
structure CsvCtx where
  freshIds : Nat → String
  delim : Char
  idxTitle : Nat
  idxStart : Nat
  idxEnd : Option Nat
  idxProg : Option Nat
  idxDesc : Option Nat

/-- Accumulated per-row output of the `fromCSV` loop. -/
structure CsvState where
  activities : List ActivityRange := []
  warnings : List String := []
  errors : List String := []
deriving Repr

/-- One iteration of the data-row loop of `ImportService.fromCSV`
(`i` is the 0-based line index used in the row messages). -/
def processRow (c : CsvCtx) (i : Nat) (line : String) (st : CsvState) : CsvState :=
  let row := parseCSVLine line c.delim
  if row.length < 2 then st
  else
    let title := rowField row c.idxTitle
    if title = "" then
      { st with warnings := st.warnings ++ ["Fila " ++ natToString (i + 1) ++ " ignorada: Falta título."] }
    else
      match parseFlexibleDate (rowField row c.idxStart) with
      | none =>
        { st with errors := st.errors ++ ["Fila " ++ natToString (i + 1) ++ " (\"" ++ title
            ++ "\") ignorada: Formato de fecha de inicio inválido (" ++ rowField row c.idxStart ++ ")."] }
      | some startDt =>
        let endDt0 := match c.idxEnd with
          | some j => (parseFlexibleDate (rowField row j)).getD startDt
          | none => startDt
        let clamp := dateLt endDt0 startDt
        let endDt := if clamp then startDt else endDt0
        let warnings := if clamp then
            st.warnings ++ ["Fila " ++ natToString (i + 1)
              ++ ": La fecha de fin era anterior al inicio. Se ajustó a la misma fecha."]
          else st.warnings
        { st with
          warnings := warnings
          activities := st.activities ++ [{
            id := c.freshIds i
            title := jsTrim title
            startDate := formatDate startDt
            endDate := formatDate endDt
            program := validateProgram (match c.idxProg with
              | some j => row[j]?
              | none => some "")
            categoryId := none
            color := "#3b82f6"
            status := some .active
            completed := some false
            description := (match c.idxDesc with
              | some j => row[j]?
              | none => some "") }] }

/-- The data-row loop of `fromCSV`, starting at line index `i`. -/
def processRows (c : CsvCtx) : Nat → List String → CsvState → CsvState
  | _, [], st => st
  | i, l :: rest, st => processRows c (i + 1) rest (processRow c i l st)

/-- `ImportService.fromCSV`. Fresh activity ids are drawn from `freshIds`
by row position. The `try/catch` of the source is dead in this model
(nothing inside the body throws on any input). -/
def fromCSV (freshIds : Nat → String) (content : String)
    (_existingCategories : List Category) : ImportResult :=
  let lines := (splitLines (jsTrim content)).filter (fun l => jsTrim l ≠ "")
  if lines.length < 2 then
    { success := false, message := "El CSV no contiene suficientes datos." }
  else
    let delim := if strIncludes (lines.headD "") ";" then ';' else ','
    let headers := (parseCSVLine (lines.headD "") delim).map (fun h => jsTrim (strToLower h))
    let idxTitle := headers.findIdx? (fun h =>
      strIncludes h "tit" || h == "evento" || strIncludes h "actividad")
    let idxStart := headers.findIdx? (fun h =>
      strIncludes h "start" || strIncludes h "ini" || h == "desde" || strIncludes h "fecha")
    let idxEnd := headers.findIdx? (fun h =>
      strIncludes h "end" || strIncludes h "fin" || h == "hasta")
    let idxProg := headers.findIdx? (fun h => strIncludes h "prog")
    let idxDesc := headers.findIdx? (fun h =>
      strIncludes h "desc" || h == "notas" || strIncludes h "detall")
    match idxTitle, idxStart with
    | some iT, some iS =>
      let ctx : CsvCtx :=
        { freshIds := freshIds, delim := delim, idxTitle := iT, idxStart := iS
          idxEnd := idxEnd, idxProg := idxProg, idxDesc := idxDesc }
      let st := processRows ctx 1 (lines.drop 1) {}
      { success := decide (0 < st.activities.length)
        message := if 0 < st.activities.length then
            "CSV procesado: " ++ natToString st.activities.length ++ " actividades encontradas."
          else "No se pudieron procesar actividades válidas del CSV."
        data := some { activities := st.activities }
        warnings := some st.warnings
        errors := some st.errors }
    | _, _ =>
      { success := false
        message := "No se encontraron las columnas críticas (Título y Fecha Inicio)." }

/-- The matching predicate of `getDayStyle` in `CalendarCanvas.tsx`: a
style with no `endDate` matches by exact string equality with the
formatted query date; a style with an `endDate` matches when both bounds
parse to valid dates and the query date lies in the inclusive interval
(date-fns `isWithinInterval`). -/
def dayStyleMatches (date : SimpleDate) (s : DayStyle) : Bool :=
  match s.endDate with
  | none => s.startDate == formatDate date
  | some e =>
    match parseSafeDate s.startDate, parseSafeDate e with
    | some st, some en => dateLe st date && dateLe date en
    | _, _ => false

/-- `getDayStyle` of `CalendarCanvas.tsx`: first matching style in array
order. -/
def getDayStyle (styles : List DayStyle) (date : SimpleDate) : Option DayStyle :=
  styles.find? (dayStyleMatches date)

/-! ## Character and string helper lemmas -/

theorem toList_mk (l : List Char) : (String.mk l).toList = l := rfl

theorem toList_append (s t : String) : (s ++ t).toList = s.toList ++ t.toList :=
  String.data_append s t

theorem isDigit_toNat {c : Char} (h : c.isDigit = true) : 48 ≤ c.toNat ∧ c.toNat ≤ 57 := by
  simp [Char.isDigit] at h
  obtain ⟨h1, h2⟩ := h
  exact ⟨by exact_mod_cast h1, by exact_mod_cast h2⟩

theorem isDigit_ne_of_lt {c d : Char} (h : c.isDigit = true) (hd : d.toNat < 48) : c ≠ d := by
  obtain ⟨h1, _⟩ := isDigit_toNat h
  intro hc
  rw [hc] at h1
  omega

theorem isDigit_not_ws {c : Char} (h : c.isDigit = true) : c.isWhitespace = false := by
  simp only [Char.isWhitespace]
  simp [isDigit_ne_of_lt h (show (' ').toNat < 48 by decide),
    isDigit_ne_of_lt h (show ('\t').toNat < 48 by decide),
    isDigit_ne_of_lt h (show ('\r').toNat < 48 by decide),
    isDigit_ne_of_lt h (show ('\n').toNat < 48 by decide)]

theorem isDigit_not_dateSep {c : Char} (h : c.isDigit = true) :
    (decide (c = '/') || decide (c = '-') || decide (c = '.')) = false := by
  simp [isDigit_ne_of_lt h (show ('/').toNat < 48 by decide),
    isDigit_ne_of_lt h (show ('-').toNat < 48 by decide),
    isDigit_ne_of_lt h (show ('.').toNat < 48 by decide)]

theorem isDigit_not_dash {c : Char} (h : c.isDigit = true) : (decide (c = '-')) = false := by
  simp [isDigit_ne_of_lt h (show ('-').toNat < 48 by decide)]

theorem dropWhile_eq_self {p : Char → Bool} {l : List Char}
    (h : ∀ c ∈ l, p c = false) : l.dropWhile p = l := by
  cases l with
  | nil => rfl
  | cons c rest => simp [List.dropWhile_cons, h c (by simp)]

theorem jsTrim_eq_self {s : String} (h : ∀ c ∈ s.toList, c.isWhitespace = false) :
    jsTrim s = s := by
  unfold jsTrim
  rw [dropWhile_eq_self h, dropWhile_eq_self (by intro c hc; exact h c (by simpa using hc))]
  simp

theorem splitCharAux_no_sep {isSep : Char → Bool} {l : List Char}
    (h : ∀ c ∈ l, isSep c = false) :
    ∀ acc, splitCharAux isSep l acc = [String.mk (acc.reverse ++ l)] := by
  induction l with
  | nil => intro acc; simp [splitCharAux]
  | cons c rest ih =>
    intro acc
    rw [splitCharAux]
    rw [if_neg (by simp [h c (by simp)])]
    rw [ih (fun d hd => h d (by simp [hd]))]
    simp

theorem splitCharAux_sep {isSep : Char → Bool} {xs : List Char} {s : Char}
    (hxs : ∀ c ∈ xs, isSep c = false) (hs : isSep s = true) :
    ∀ rest acc, splitCharAux isSep (xs ++ s :: rest) acc
      = String.mk (acc.reverse ++ xs) :: splitCharAux isSep rest [] := by
  induction xs with
  | nil =>
    intro rest acc
    rw [List.nil_append, splitCharAux, if_pos hs]
    simp
  | cons c xs ih =>
    intro rest acc
    rw [List.cons_append, splitCharAux]
    rw [if_neg (by simp [hxs c (by simp)])]
    rw [ih (fun d hd => hxs d (by simp [hd]))]
    simp

/-! ## Decimal rendering and parsing lemmas -/

theorem takeDigitsVal_append {xs : List Char} (h : ∀ c ∈ xs, c.isDigit = true) :
    ∀ ys acc, takeDigitsVal (xs ++ ys) acc = takeDigitsVal ys (takeDigitsVal xs acc) := by
  induction xs with
  | nil => intro ys acc; simp [takeDigitsVal]
  | cons c rest ih =>
    intro ys acc
    rw [List.cons_append, takeDigitsVal, if_pos (h c (by simp)), takeDigitsVal,
      if_pos (h c (by simp))]
    exact ih (fun d hd => h d (by simp [hd])) ys _

theorem natToCharsFuel_digits :
    ∀ fuel n, n < fuel → ∀ c ∈ natToCharsFuel fuel n, c.isDigit = true := by
  intro fuel
  induction fuel with
  | zero => omega
  | succ fuel ih =>
    intro n hn c hc
    rw [natToCharsFuel] at hc
    by_cases h : n < 10
    · rw [if_pos h] at hc
      simp at hc
      subst hc
      unfold digitChar
      interval_cases n <;> decide
    · rw [if_neg h] at hc
      rw [List.mem_append] at hc
      rcases hc with hc | hc
      · exact ih (n / 10) (by omega) c hc
      · simp at hc
        subst hc
        unfold digitChar
        have hm : n % 10 < 10 := Nat.mod_lt _ (by omega)
        interval_cases h : n % 10 <;> decide

theorem natToChars_digits (n : Nat) : ∀ c ∈ natToChars n, c.isDigit = true :=
  natToCharsFuel_digits (n + 1) n (by omega)

theorem digitChar_isDigit {n : Nat} (h : n < 10) : (digitChar n).isDigit = true := by
  unfold digitChar; interval_cases n <;> decide

theorem digitChar_val {n : Nat} (h : n < 10) : (digitChar n).toNat - 48 = n := by
  unfold digitChar; interval_cases n <;> decide

theorem takeDigitsVal_natToCharsFuel :
    ∀ fuel n, n < fuel → ∀ acc,
      takeDigitsVal (natToCharsFuel fuel n) acc
        = acc * 10 ^ (natToCharsFuel fuel n).length + n := by
  intro fuel
  induction fuel with
  | zero => omega
  | succ fuel ih =>
    intro n hn acc
    rw [natToCharsFuel]
    by_cases h : n < 10
    · rw [if_pos h]
      rw [takeDigitsVal, if_pos (digitChar_isDigit h), takeDigitsVal, digitChar_val h]
      simp
    · rw [if_neg h]
      rw [takeDigitsVal_append (natToCharsFuel_digits fuel (n / 10) (by omega))]
      rw [ih (n / 10) (by omega)]
      have hm : n % 10 < 10 := Nat.mod_lt _ (by omega)
      rw [takeDigitsVal, if_pos (digitChar_isDigit hm), takeDigitsVal, digitChar_val hm]
      rw [List.length_append]
      simp [pow_succ]
      have hdm := Nat.div_add_mod n 10
      ring_nf
      omega

theorem takeDigitsVal_natToChars (n : Nat) :
    ∀ acc, takeDigitsVal (natToChars n) acc = acc * 10 ^ (natToChars n).length + n :=
  takeDigitsVal_natToCharsFuel (n + 1) n (by omega)

theorem natVal_natToString (n : Nat) : natVal (natToString n) = n := by
  unfold natVal natToString
  rw [toList_mk, takeDigitsVal_natToChars]
  simp

theorem natToString_digits (n : Nat) : ∀ c ∈ (natToString n).toList, c.isDigit = true := by
  unfold natToString
  rw [toList_mk]
  exact natToChars_digits n

theorem natVal_pad2 (n : Nat) : natVal (pad2 n) = n := by
  unfold pad2
  by_cases h : n < 10
  · rw [if_pos h]
    unfold natVal
    rw [toList_mk, takeDigitsVal, if_pos (by decide), takeDigitsVal,
      if_pos (digitChar_isDigit h), takeDigitsVal, digitChar_val h]
    have h0 : ('0').toNat - 48 = 0 := by decide
    rw [h0]
    omega
  · rw [if_neg h]
    exact natVal_natToString n

theorem pad2_digits (n : Nat) : ∀ c ∈ (pad2 n).toList, c.isDigit = true := by
  unfold pad2
  by_cases h : n < 10
  · rw [if_pos h, toList_mk]
    intro c hc
    simp at hc
    rcases hc with rfl | rfl
    · decide
    · exact digitChar_isDigit h
  · rw [if_neg h]
    exact natToString_digits n

theorem natVal_pad4 {n : Nat} (h : 999 < n) : natVal (pad4 n) = n := by
  unfold pad4
  rw [if_neg (by omega), if_neg (by omega), if_neg (by omega)]
  exact natVal_natToString n

theorem pad4_digits {n : Nat} (h : 999 < n) : ∀ c ∈ (pad4 n).toList, c.isDigit = true := by
  unfold pad4
  rw [if_neg (by omega), if_neg (by omega), if_neg (by omega)]
  exact natToString_digits n

theorem isAllDigits_of_digits {s : String} (hne : s.toList ≠ [])
    (h : ∀ c ∈ s.toList, c.isDigit = true) : isAllDigits s = true := by
  unfold isAllDigits
  simp [List.all_eq_true, hne]
  constructor
  · intro habs; exact hne (by simpa using habs)
  · exact h

theorem jsNumberNat_digits {s : String} (hne : s.toList ≠ [])
    (h : ∀ c ∈ s.toList, c.isDigit = true) : jsNumberNat s = some (natVal s) := by
  unfold jsNumberNat
  have htrim : jsTrim s = s := jsTrim_eq_self (fun c hc => isDigit_not_ws (h c hc))
  rw [htrim]
  rw [if_neg (by intro habs; exact hne (by rw [habs]; rfl))]
  rw [if_pos (isAllDigits_of_digits hne h)]

theorem formatDate_toList (d : SimpleDate) :
    (formatDate d).toList = (pad4 d.year).toList ++ '-' :: ((pad2 d.month).toList ++ '-' :: (pad2 d.day).toList) := by
  unfold formatDate
  rw [toList_append, toList_append, toList_append, toList_append]
  simp

theorem splitOnDash_formatDate (d : SimpleDate) (hy : 999 < d.year) :
    splitOnDash (formatDate d) = [pad4 d.year, pad2 d.month, pad2 d.day] := by
  unfold splitOnDash
  rw [formatDate_toList]
  rw [splitCharAux_sep (fun c hc => isDigit_not_dash (pad4_digits hy c hc)) (by simp)]
  rw [splitCharAux_sep (fun c hc => isDigit_not_dash (pad2_digits d.month c hc)) (by simp)]
  rw [splitCharAux_no_sep (fun c hc => isDigit_not_dash (pad2_digits d.day c hc))]
  simp

theorem pad2_toList_ne_nil (n : Nat) : (pad2 n).toList ≠ [] := by
  unfold pad2
  by_cases h : n < 10
  · rw [if_pos h, toList_mk]; simp
  · rw [if_neg h]
    unfold natToString
    rw [toList_mk, natToChars, natToCharsFuel]
    rw [if_neg h]
    simp

theorem pad4_toList_ne_nil {n : Nat} (h : 999 < n) : (pad4 n).toList ≠ [] := by
  unfold pad4
  rw [if_neg (by omega), if_neg (by omega), if_neg (by omega)]
  unfold natToString
  rw [toList_mk, natToChars, natToCharsFuel]
  rw [if_neg (by omega)]
  simp

/-- Formatting a calendar date with a four-digit-or-more year and parsing
it back with `parseSafeDate` is the identity. -/
theorem parseSafeDate_formatDate (d : SimpleDate) (hy : 999 < d.year) :
    parseSafeDate (formatDate d) = some d := by
  unfold parseSafeDate
  rw [splitOnDash_formatDate d hy]
  simp only [List.map_cons]
  rw [jsNumberNat_digits (pad4_toList_ne_nil hy) (pad4_digits hy),
    jsNumberNat_digits (pad2_toList_ne_nil d.month) (pad2_digits d.month),
    jsNumberNat_digits (pad2_toList_ne_nil d.day) (pad2_digits d.day)]
  simp only [List.map_nil]
  rw [natVal_pad4 hy, natVal_pad2, natVal_pad2]
  rw [if_neg (by omega)]

/-! ## Claim C9: program coercion -/

/-- C9. For every input string (or absent input), `validateProgram`
returns one of the five enumeration values by case-insensitive substring
matching in priority order: a string containing "orq" maps to Orchestra;
else containing "coro inf" to Children's Choir; else containing
"coro juv" to Youth Choir; else containing "coro" to Choir; else
(including empty or absent input) to General. -/
theorem claim_c9_program_coercion (val : Option String) :
    (strIncludes (strToLower (jsOr val "")) "orq" = true →
      validateProgram val = .orquesta) ∧
    (strIncludes (strToLower (jsOr val "")) "orq" = false →
      strIncludes (strToLower (jsOr val "")) "coro inf" = true →
      validateProgram val = .coroInfantil) ∧
    (strIncludes (strToLower (jsOr val "")) "orq" = false →
      strIncludes (strToLower (jsOr val "")) "coro inf" = false →
      strIncludes (strToLower (jsOr val "")) "coro juv" = true →
      validateProgram val = .coroJuvenil) ∧
    (strIncludes (strToLower (jsOr val "")) "orq" = false →
      strIncludes (strToLower (jsOr val "")) "coro inf" = false →
      strIncludes (strToLower (jsOr val "")) "coro juv" = false →
      strIncludes (strToLower (jsOr val "")) "coro" = true →
      validateProgram val = .coro) ∧
    (strIncludes (strToLower (jsOr val "")) "orq" = false →
      strIncludes (strToLower (jsOr val "")) "coro inf" = false →
      strIncludes (strToLower (jsOr val "")) "coro juv" = false →
      strIncludes (strToLower (jsOr val "")) "coro" = false →
      validateProgram val = .general) := by
  unfold validateProgram
  refine ⟨?_, ?_, ?_, ?_, ?_⟩ <;> intros <;> simp_all

/-- Witness for C9: the five branches at concrete inputs, including empty
and absent input mapping to General. -/
theorem claim_c9_program_coercion_witness :
    validateProgram (some "Gran Orquesta Nacional") = .orquesta ∧
    validateProgram (some "CORO INFANTIL") = .coroInfantil ∧
    validateProgram (some "coro juvenil") = .coroJuvenil ∧
    validateProgram (some "Coro") = .coro ∧
    validateProgram (some "banda") = .general ∧
    validateProgram (some "") = .general ∧
    validateProgram none = .general := by
  refine ⟨?_, ?_, ?_, ?_, ?_, ?_, ?_⟩
  · exact (claim_c9_program_coercion (some "Gran Orquesta Nacional")).1 (by decide)
  · exact (claim_c9_program_coercion (some "CORO INFANTIL")).2.1 (by decide) (by decide)
  · exact (claim_c9_program_coercion (some "coro juvenil")).2.2.1 (by decide) (by decide)
      (by decide)
  · exact (claim_c9_program_coercion (some "Coro")).2.2.2.1 (by decide) (by decide)
      (by decide) (by decide)
  · exact (claim_c9_program_coercion (some "banda")).2.2.2.2 (by decide) (by decide)
      (by decide) (by decide)
  · exact (claim_c9_program_coercion (some "")).2.2.2.2 (by decide) (by decide)
      (by decide) (by decide)
  · exact (claim_c9_program_coercion none).2.2.2.2 (by decide) (by decide)
      (by decide) (by decide)

/-! ## Claim C10: rows with fewer than two fields are skipped silently -/

/-- C10. A CSV data row that tokenizes to fewer than two fields is
skipped entirely and silently: no warning, no error, no activity — even
when the row would otherwise have triggered the blank-title warning or the
unparseable-date error. The second conjunct runs the full import on a
document whose only data row is a single field with an unparseable start
date: the result records no warnings, no errors, no activities. -/
theorem claim_c10_short_rows_skipped :
    (∀ (c : CsvCtx) (i : Nat) (line : String) (st : CsvState),
      (parseCSVLine line c.delim).length < 2 → processRow c i line st = st) ∧
    ((fromCSV (fun _ => "fresh") "Titulo,Fecha\n2026-99-99" []).warnings = some [] ∧
     (fromCSV (fun _ => "fresh") "Titulo,Fecha\n2026-99-99" []).errors = some [] ∧
     importedActivities (fromCSV (fun _ => "fresh") "Titulo,Fecha\n2026-99-99" []) = []) := by
  constructor
  · intro c i line st h
    unfold processRow
    rw [if_pos h]
  · refine ⟨rfl, rfl, by decide⟩

/-- Witness for C10: a one-field row (which, were it processed, would have
triggered the unparseable-date error, its title column holding no date)
leaves the accumulated state untouched. -/
theorem claim_c10_short_rows_skipped_witness :
    processRow ⟨fun _ => "fresh", ',', 0, 1, none, none, none⟩ 1 "SoloTitulo" {} = {} :=
  claim_c10_short_rows_skipped.1 ⟨fun _ => "fresh", ',', 0, 1, none, none, none⟩ 1
    "SoloTitulo" {} (by decide)

/-! ## Claim C3: day-style interval reconciliation -/

/-- C3. The reconciler returns a style with no `endDate` only when the
queried date equals that style's `startDate` exactly; a style with an
`endDate` (whose bounds parse) matches exactly when the queried date lies
in the inclusive interval from `startDate` to `endDate`. In particular a
style spanning 2026-03-10 to 2026-03-12 matches the 10th, 11th and 12th
and matches neither the 9th nor the 13th. -/
theorem claim_c3_day_style_interval :
    (∀ (date : SimpleDate) (styles : List DayStyle) (r : DayStyle),
      getDayStyle styles date = some r →
      (r.endDate = none → r.startDate = formatDate date) ∧
      (∀ e st en, r.endDate = some e → parseSafeDate r.startDate = some st →
        parseSafeDate e = some en →
        dateLe st date = true ∧ dateLe date en = true)) ∧
    (∀ (date : SimpleDate) (s : DayStyle),
      (s.endDate = none →
        (dayStyleMatches date s = true ↔ s.startDate = formatDate date)) ∧
      (∀ e st en, s.endDate = some e → parseSafeDate s.startDate = some st →
        parseSafeDate e = some en →
        (dayStyleMatches date s = true ↔
          (dateLe st date = true ∧ dateLe date en = true)))) ∧
    (dayStyleMatches ⟨2026, 3, 10⟩ ⟨"s1", "2026-03-10", some "2026-03-12", none⟩ = true ∧
     dayStyleMatches ⟨2026, 3, 11⟩ ⟨"s1", "2026-03-10", some "2026-03-12", none⟩ = true ∧
     dayStyleMatches ⟨2026, 3, 12⟩ ⟨"s1", "2026-03-10", some "2026-03-12", none⟩ = true ∧
     dayStyleMatches ⟨2026, 3, 9⟩ ⟨"s1", "2026-03-10", some "2026-03-12", none⟩ = false ∧
     dayStyleMatches ⟨2026, 3, 13⟩ ⟨"s1", "2026-03-10", some "2026-03-12", none⟩ = false ∧
     getDayStyle [⟨"s1", "2026-03-10", some "2026-03-12", none⟩] ⟨2026, 3, 11⟩
       = some ⟨"s1", "2026-03-10", some "2026-03-12", none⟩) := by
  have hmatch : ∀ (date : SimpleDate) (s : DayStyle),
      (s.endDate = none →
        (dayStyleMatches date s = true ↔ s.startDate = formatDate date)) ∧
      (∀ e st en, s.endDate = some e → parseSafeDate s.startDate = some st →
        parseSafeDate e = some en →
        (dayStyleMatches date s = true ↔
          (dateLe st date = true ∧ dateLe date en = true))) := by
    intro date s
    constructor
    · intro hnone
      unfold dayStyleMatches
      rw [hnone]
      simp
    · intro e st en he hst hen
      unfold dayStyleMatches
      rw [he]
      simp [hst, hen]
  refine ⟨?_, hmatch, by decide⟩
  intro date styles r hfind
  have hp : dayStyleMatches date r = true := List.find?_some hfind
  constructor
  · intro hnone
    exact ((hmatch date r).1 hnone).mp hp
  · intro e st en he hst hen
    exact ((hmatch date r).2 e st en he hst hen).mp hp

/-- Witness for C3: on a one-style list, the reconciler returns the
spanning style for a queried date strictly inside the interval, and the
returned style's bounds do contain the query. -/
theorem claim_c3_day_style_interval_witness :
    dateLe ⟨2026, 3, 10⟩ ⟨2026, 3, 11⟩ = true ∧
    dateLe ⟨2026, 3, 11⟩ ⟨2026, 3, 12⟩ = true :=
  (claim_c3_day_style_interval.1 ⟨2026, 3, 11⟩
    [⟨"s1", "2026-03-10", some "2026-03-12", none⟩]
    ⟨"s1", "2026-03-10", some "2026-03-12", none⟩ (by decide)).2
    "2026-03-12" ⟨2026, 3, 10⟩ ⟨2026, 3, 12⟩ rfl (by decide) (by decide)

/-! ## Evaluation lemmas for three-part date strings -/

/-- The three-part date string with parts `a`, `b`, `c` and separator
`sep`. -/
def render3 (sep : Char) (a b c : String) : String :=
  a ++ String.mk [sep] ++ b ++ String.mk [sep] ++ c

theorem daysInMonth_le31 (y m : Nat) : daysInMonth y m ≤ 31 := by
  unfold daysInMonth
  split
  · split <;> omega
  · split <;> omega

theorem daysInMonth_ge28 (y m : Nat) : 28 ≤ daysInMonth y m := by
  unfold daysInMonth
  split
  · split <;> omega
  · split <;> omega

theorem jsYearMap_of_gt1000 {y : Nat} (h : 1000 < y) : jsYearMap y = y := by
  unfold jsYearMap
  rw [if_neg (by omega), if_neg (by omega)]

theorem render3_toList (sep : Char) (a b c : String) :
    (render3 sep a b c).toList
      = a.toList ++ sep :: (b.toList ++ sep :: c.toList) := by
  unfold render3
  rw [toList_append, toList_append, toList_append, toList_append]
  simp

theorem isAllDigits_ne_nil {s : String} (h : isAllDigits s = true) : s.toList ≠ [] := by
  unfold isAllDigits at h
  simp at h
  exact fun habs => h.1 habs

theorem isAllDigits_mem {s : String} (h : isAllDigits s = true) :
    ∀ c ∈ s.toList, c.isDigit = true := by
  unfold isAllDigits at h
  simp [List.all_eq_true] at h
  exact h.2

theorem isDateSep_cases {sep : Char} (h : sep = '/' ∨ sep = '-' ∨ sep = '.') :
    (decide (sep = '/') || decide (sep = '-') || decide (sep = '.')) = true := by
  rcases h with rfl | rfl | rfl <;> decide

theorem jsTrim_render3 {sep : Char} {a b c : String}
    (hsep : sep = '/' ∨ sep = '-' ∨ sep = '.')
    (ha : isAllDigits a = true) (hb : isAllDigits b = true) (hc : isAllDigits c = true) :
    jsTrim (render3 sep a b c) = render3 sep a b c := by
  apply jsTrim_eq_self
  intro ch hch
  rw [render3_toList] at hch
  have hsepws : sep.isWhitespace = false := by rcases hsep with rfl | rfl | rfl <;> decide
  simp at hch
  rcases hch with h | h | h | h | h
  · exact isDigit_not_ws (isAllDigits_mem ha ch h)
  · rw [h]; exact hsepws
  · exact isDigit_not_ws (isAllDigits_mem hb ch h)
  · rw [h]; exact hsepws
  · exact isDigit_not_ws (isAllDigits_mem hc ch h)

theorem render3_ne_empty {sep : Char} {a b c : String} :
    render3 sep a b c ≠ "" := by
  intro habs
  have h2 : (render3 sep a b c).toList = [] := by rw [habs]; rfl
  rw [render3_toList] at h2
  simp at h2

theorem splitDateSeps_render3 {sep : Char} {a b c : String}
    (hsep : sep = '/' ∨ sep = '-' ∨ sep = '.')
    (ha : isAllDigits a = true) (hb : isAllDigits b = true) (hc : isAllDigits c = true) :
    splitDateSeps (render3 sep a b c) = [a, b, c] := by
  unfold splitDateSeps
  rw [render3_toList]
  have hdig : ∀ (s : String), isAllDigits s = true → ∀ ch ∈ s.toList,
      (decide (ch = '/') || decide (ch = '-') || decide (ch = '.')) = false := by
    intro s hs ch hch
    exact isDigit_not_dateSep (isAllDigits_mem hs ch hch)
  rw [splitCharAux_sep (hdig a ha) (isDateSep_cases hsep)]
  rw [splitCharAux_sep (hdig b hb) (isDateSep_cases hsep)]
  rw [splitCharAux_no_sep (hdig c hc)]
  simp

theorem jsParseInt_digits {s : String} (h : isAllDigits s = true) :
    jsParseInt s = some (natVal s) := by
  have hmem := isAllDigits_mem h
  obtain ⟨ch, rest, hne⟩ : ∃ ch rest, s.toList = ch :: rest := by
    rcases he : s.toList with _ | ⟨ch, rest⟩
    · exact absurd he (isAllDigits_ne_nil h)
    · exact ⟨ch, rest, rfl⟩
  have hch : ch.isDigit = true := hmem ch (by rw [hne]; simp)
  have hplus : ch ≠ '+' := isDigit_ne_of_lt hch (by decide)
  unfold jsParseInt
  rw [dropWhile_eq_self (fun d hd => isDigit_not_ws (hmem d hd)), hne]
  simp only [List.head?_cons, List.tail_cons]
  rw [if_neg (by simp [hplus])]
  show (if ch.isDigit = true then some (takeDigitsVal (ch :: rest) 0) else none)
    = some (natVal s)
  rw [if_pos hch]
  unfold natVal
  rw [hne]

theorem jsDateFromString_render3 {sep : Char} {a b c : String}
    (hsep : sep = '/' ∨ sep = '-' ∨ sep = '.')
    (ha : isAllDigits a = true) (hb : isAllDigits b = true) (hc : isAllDigits c = true) :
    jsDateFromString (render3 sep a b c)
      = jsDateFromParts (natVal a) (natVal b) (natVal c) := by
  unfold jsDateFromString
  rw [splitDateSeps_render3 hsep ha hb hc]
  show (if (isAllDigits a && isAllDigits b && isAllDigits c) = true then
      jsDateFromParts (natVal a) (natVal b) (natVal c) else none)
    = jsDateFromParts (natVal a) (natVal b) (natVal c)
  rw [ha, hb, hc]
  simp

theorem parseFlexibleDate_render3 {sep : Char} {a b c : String}
    (hsep : sep = '/' ∨ sep = '-' ∨ sep = '.')
    (ha : isAllDigits a = true) (hb : isAllDigits b = true) (hc : isAllDigits c = true) :
    parseFlexibleDate (render3 sep a b c)
      = parseFlexibleParts (natVal a) (natVal b) (natVal c) := by
  unfold parseFlexibleDate parseFlexibleParts
  rw [jsTrim_render3 hsep ha hb hc]
  rw [if_neg render3_ne_empty]
  rw [jsDateFromString_render3 hsep ha hb hc]
  rw [splitDateSeps_render3 hsep ha hb hc]
  rw [List.map_cons, List.map_cons, List.map_cons, List.map_nil,
    jsParseInt_digits ha, jsParseInt_digits hb, jsParseInt_digits hc]

/-! ## parseFlexibleDate branch lemmas -/

theorem jsDateFromParts_month_first {p1 p2 p3 : Nat} (h1 : 1 ≤ p1) (h2 : p1 ≤ 12)
    (h3 : 1 ≤ p2) (h4 : p2 ≤ daysInMonth (jsYearMap p3) p1) :
    jsDateFromParts p1 p2 p3 = some ⟨jsYearMap p3, p1, p2⟩ := by
  unfold jsDateFromParts
  rw [if_neg (by omega),
    if_pos (by simp only [Bool.and_eq_true, decide_eq_true_eq]; omega),
    if_pos (by simp only [Bool.and_eq_true, decide_eq_true_eq]; omega)]

theorem jsDateFromParts_none_mid {p1 p2 p3 : Nat} (ha : 12 < p1) (hb : p1 ≤ 31) :
    jsDateFromParts p1 p2 p3 = none := by
  unfold jsDateFromParts
  rw [if_neg (by omega),
    if_neg (by simp only [Bool.and_eq_true, decide_eq_true_eq]; omega)]

theorem parseFlexibleParts_of_direct {p1 p2 p3 : Nat} {dd : SimpleDate}
    (hD : jsDateFromParts p1 p2 p3 = some dd) (hyr : 1000 < dd.year) :
    parseFlexibleParts p1 p2 p3 = some dd := by
  unfold parseFlexibleParts
  rw [hD]
  simp [hyr]

theorem parseFlexibleParts_of_none {p1 p2 p3 : Nat}
    (hD : jsDateFromParts p1 p2 p3 = none) :
    parseFlexibleParts p1 p2 p3 = manualFromParts p1 p2 p3 := by
  unfold parseFlexibleParts
  rw [hD]

theorem manualFromParts_day_first {p1 p2 p3 : Nat} (h1 : ¬ 1000 < p1)
    (h2 : 1000 < p3) (h3 : 12 < p1) (hval : validDate p3 p2 p1 = true) :
    manualFromParts p1 p2 p3 = some ⟨p3, p2, p1⟩ := by
  unfold manualFromParts manualResolve
  rw [if_neg h1, if_pos h2, if_pos h3]
  show (if mkDateRoundTrips p3 p2 p1 = true then some (⟨p3, p2, p1⟩ : SimpleDate) else none)
    = some (⟨p3, p2, p1⟩ : SimpleDate)
  rw [if_pos (by unfold mkDateRoundTrips; simp [hval]; omega)]

/-- When the heuristic resolution of the manual branch yields components
that do not form a real calendar date, the direct engine parse either
fails as well or yields an implausible year, so the whole parse fails. -/
theorem parseFlexibleParts_invalid {p1 p2 p3 y m d : Nat}
    (hres : manualResolve p1 p2 p3 = some (y, m, d))
    (hval : validDate y m d = false) :
    parseFlexibleParts p1 p2 p3 = none := by
  have hval' : ¬ (1 ≤ m ∧ m ≤ 12 ∧ 1 ≤ d ∧ d ≤ daysInMonth y m) := by
    intro hcon
    have hv : validDate y m d = true := by
      unfold validDate
      simp only [Bool.and_eq_true, decide_eq_true_eq]
      exact ⟨⟨⟨hcon.1, hcon.2.1⟩, hcon.2.2.1⟩, hcon.2.2.2⟩
    rw [hval] at hv
    simp at hv
  have hmanual : manualFromParts p1 p2 p3 = none := by
    unfold manualFromParts
    rw [hres]
    show (if mkDateRoundTrips y m d = true then some (⟨y, m, d⟩ : SimpleDate) else none) = none
    rw [if_neg (by unfold mkDateRoundTrips; simp [hval])]
  have hdirect : ∀ dd, jsDateFromParts p1 p2 p3 = some dd → ¬ 1000 < dd.year := by
    intro dd hdd hyr
    unfold manualResolve at hres
    unfold jsDateFromParts at hdd
    by_cases hA : 1000 < p1
    · -- year-first resolution: y = p1, m = p2, d = p3
      rw [if_pos hA] at hres
      rw [Option.some.injEq, Prod.mk.injEq, Prod.mk.injEq] at hres
      obtain ⟨hy, hm, hd⟩ := hres
      subst hy; subst hm; subst hd
      rw [if_pos (by omega : 31 < p1)] at hdd
      rw [jsYearMap_of_gt1000 hA] at hdd
      by_cases hcond : (1 ≤ p2 && p2 ≤ 12 && 1 ≤ p3 && p3 ≤ daysInMonth p1 p2) = true
      · simp only [Bool.and_eq_true, decide_eq_true_eq] at hcond
        refine hval' ⟨?_, ?_, ?_, ?_⟩ <;> omega
      · rw [if_neg hcond] at hdd
        exact Option.noConfusion hdd
    · rw [if_neg hA] at hres
      by_cases hP : 1000 < p3
      · rw [if_pos hP] at hres
        by_cases h12a : 12 < p1
        · -- day-first resolution: y = p3, m = p2, d = p1
          rw [if_pos h12a] at hres
          rw [Option.some.injEq, Prod.mk.injEq, Prod.mk.injEq] at hres
          obtain ⟨hy, hm, hd⟩ := hres
          subst hy; subst hm; subst hd
          by_cases h31 : 31 < p1
          · rw [if_pos h31] at hdd
            by_cases hcond : (1 ≤ p2 && p2 ≤ 12 && 1 ≤ p3 &&
                p3 ≤ daysInMonth (jsYearMap p1) p2) = true
            · simp only [Bool.and_eq_true, decide_eq_true_eq] at hcond
              have := daysInMonth_le31 (jsYearMap p1) p2
              omega
            · rw [if_neg hcond] at hdd
              exact Option.noConfusion hdd
          · rw [if_neg h31,
              if_neg (by simp only [Bool.and_eq_true, decide_eq_true_eq]; omega)] at hdd
            exact Option.noConfusion hdd
        · rw [if_neg h12a] at hres
          by_cases h12b : 12 < p2
          · -- month/day resolution: y = p3, m = p1, d = p2
            rw [if_pos h12b] at hres
            rw [Option.some.injEq, Prod.mk.injEq, Prod.mk.injEq] at hres
            obtain ⟨hy, hm, hd⟩ := hres
            subst hy; subst hm; subst hd
            rw [if_neg (by omega : ¬ 31 < p1)] at hdd
            by_cases hp1 : (1 ≤ p1 && p1 ≤ 12) = true
            · rw [if_pos hp1] at hdd
              simp only [Bool.and_eq_true, decide_eq_true_eq] at hp1
              by_cases hcond : (1 ≤ p2 && p2 ≤ daysInMonth (jsYearMap p3) p1) = true
              · simp only [Bool.and_eq_true, decide_eq_true_eq] at hcond
                rw [jsYearMap_of_gt1000 hP] at hcond
                refine hval' ⟨?_, ?_, ?_, ?_⟩ <;> omega
              · rw [if_neg hcond] at hdd
                exact Option.noConfusion hdd
            · rw [if_neg hp1] at hdd
              exact Option.noConfusion hdd
          · -- ambiguous resolution, day-first: y = p3, m = p2, d = p1
            rw [if_neg h12b] at hres
            rw [Option.some.injEq, Prod.mk.injEq, Prod.mk.injEq] at hres
            obtain ⟨hy, hm, hd⟩ := hres
            subst hy; subst hm; subst hd
            rw [if_neg (by omega : ¬ 31 < p1)] at hdd
            by_cases hp1 : (1 ≤ p1 && p1 ≤ 12) = true
            · rw [if_pos hp1] at hdd
              simp only [Bool.and_eq_true, decide_eq_true_eq] at hp1
              by_cases hcond : (1 ≤ p2 && p2 ≤ daysInMonth (jsYearMap p3) p1) = true
              · simp only [Bool.and_eq_true, decide_eq_true_eq] at hcond
                have h28 := daysInMonth_ge28 p3 p2
                rw [jsYearMap_of_gt1000 hP] at hcond
                refine hval' ⟨?_, ?_, ?_, ?_⟩ <;> omega
              · rw [if_neg hcond] at hdd
                exact Option.noConfusion hdd
            · rw [if_neg hp1] at hdd
              exact Option.noConfusion hdd
      · rw [if_neg hP] at hres
        exact Option.noConfusion hres
  unfold parseFlexibleParts
  rcases hJD : jsDateFromParts p1 p2 p3 with _ | dd
  · exact hmanual
  · have hyr := hdirect dd hJD
    split
    · rename_i dd2 hd
      simp [hyr] at hd
    · exact hmanual

/-! ## Claim C2: day-first default for ambiguous dates -/

/-- C2 counterexample. On the genuinely ambiguous date string
"05/06/2024" (both leading parts at most 12, third part above 1000), the
claim says the first part is the day: the result would be June 5, 2024.
The code instead returns May 6, 2024 — the first part is the month —
because the direct engine parse reads slash dates month-first and
succeeds, so the day-first fallback heuristic never runs. -/
theorem claim_c2_counterexample :
    parseFlexibleDate "05/06/2024" = some ⟨2024, 5, 6⟩ ∧
    parseFlexibleDate "05/06/2024" ≠ some ⟨2024, 6, 5⟩ := by
  constructor
  · decide
  · decide

/-- C2 amended. For three digit-run parts with the third above 1000:
when both leading parts lie in 1..12 (the genuinely ambiguous case), the
engine's direct parse wins and the first part is taken as the *month*,
the second as the day; the day-first resolution only governs D/M/YYYY
strings whose first part exceeds 12 — exactly then a valid D/M/YYYY date
parses as day D, month M. -/
theorem claim_c2_amended_month_first (sep : Char) (a b c : String)
    (hsep : sep = '/' ∨ sep = '-' ∨ sep = '.')
    (ha : isAllDigits a = true) (hb : isAllDigits b = true) (hc : isAllDigits c = true)
    (hyear : 1000 < natVal c) :
    (1 ≤ natVal a → natVal a ≤ 12 → 1 ≤ natVal b → natVal b ≤ 12 →
      parseFlexibleDate (render3 sep a b c)
        = some ⟨natVal c, natVal a, natVal b⟩) ∧
    (12 < natVal a → natVal a ≤ daysInMonth (natVal c) (natVal b) →
      1 ≤ natVal b → natVal b ≤ 12 →
      parseFlexibleDate (render3 sep a b c)
        = some ⟨natVal c, natVal b, natVal a⟩) := by
  rw [parseFlexibleDate_render3 hsep ha hb hc]
  constructor
  · intro h1 h2 h3 h4
    have hD : jsDateFromParts (natVal a) (natVal b) (natVal c)
        = some ⟨jsYearMap (natVal c), natVal a, natVal b⟩ :=
      jsDateFromParts_month_first h1 h2 h3
        (by have := daysInMonth_ge28 (jsYearMap (natVal c)) (natVal a); omega)
    rw [jsYearMap_of_gt1000 hyear] at hD
    exact parseFlexibleParts_of_direct hD (by simpa using hyear)
  · intro h1 h2 h3 h4
    have hle31 : natVal a ≤ 31 := by
      have := daysInMonth_le31 (natVal c) (natVal b)
      omega
    rw [parseFlexibleParts_of_none (jsDateFromParts_none_mid h1 hle31)]
    apply manualFromParts_day_first (by omega) hyear h1
    unfold validDate
    simp only [Bool.and_eq_true, decide_eq_true_eq]
    refine ⟨⟨⟨h3, h4⟩, by omega⟩, h2⟩

/-- Witness for C2 amended: "5/6/2024" parses month-first to May 6, 2024,
while "25/12/2024" (first part above 12) parses day-first to December 25,
2024. -/
theorem claim_c2_amended_month_first_witness :
    parseFlexibleDate (render3 '/' "5" "6" "2024") = some ⟨2024, 5, 6⟩ ∧
    parseFlexibleDate (render3 '/' "25" "12" "2024") = some ⟨2024, 12, 25⟩ := by
  constructor
  · exact (claim_c2_amended_month_first '/' "5" "6" "2024" (by left; rfl)
      (by decide) (by decide) (by decide) (by decide)).1
      (by decide) (by decide) (by decide) (by decide)
  · exact (claim_c2_amended_month_first '/' "25" "12" "2024" (by left; rfl)
      (by decide) (by decide) (by decide) (by decide)).2
      (by decide) (by decide) (by decide) (by decide)

/-! ## Claim C6: out-of-range dates are rejected, never rolled over -/

/-- C6. For every three-part digit date string whose heuristically
resolved year/month/day do not form a real calendar date, the parse
returns failure: the manual branch's final round-trip validation rejects
the components, and the direct engine parse rejects them as well (or
yields only an implausible year), so no rolled-over date is ever
returned. -/
theorem claim_c6_invalid_dates_rejected (sep : Char) (a b c : String)
    (hsep : sep = '/' ∨ sep = '-' ∨ sep = '.')
    (ha : isAllDigits a = true) (hb : isAllDigits b = true) (hc : isAllDigits c = true)
    (y m d : Nat)
    (hres : manualResolve (natVal a) (natVal b) (natVal c) = some (y, m, d))
    (hval : validDate y m d = false) :
    parseFlexibleDate (render3 sep a b c) = none := by
  rw [parseFlexibleDate_render3 hsep ha hb hc]
  exact parseFlexibleParts_invalid hres hval

/-- Witness for C6: "31/02/2024" (February 31) and "13/13/2024"
(month 13) both fail to parse. -/
theorem claim_c6_invalid_dates_rejected_witness :
    parseFlexibleDate (render3 '/' "31" "02" "2024") = none ∧
    parseFlexibleDate (render3 '.' "13" "13" "2024") = none := by
  constructor
  · exact claim_c6_invalid_dates_rejected '/' "31" "02" "2024" (by left; rfl)
      (by decide) (by decide) (by decide) 2024 2 31 (by decide) (by decide)
  · exact claim_c6_invalid_dates_rejected '.' "13" "13" "2024" (by right; right; rfl)
      (by decide) (by decide) (by decide) 2024 13 13 (by decide) (by decide)

/-! ## Claim C1: JSON export/import round trip -/

/-- The equivalence of activities the round-trip claim asserts: same
title, dates, program and id, and the same status up to the spec's
default (an absent status means active). -/
def activityEquivB (imported orig : ActivityRange) : Bool :=
  imported.title == orig.title &&
  imported.startDate == orig.startDate &&
  imported.endDate == orig.endDate &&
  imported.program == orig.program &&
  imported.status == some (orig.status.getD .active) &&
  imported.id == orig.id

/-- Pointwise `activityEquivB` of two lists of equal length. -/
def activityListEquiv : List ActivityRange → List ActivityRange → Bool
  | [], [] => true
  | a :: as, b :: bs => activityEquivB a b && activityListEquiv as bs
  | _, _ => false

theorem validateProgram_roundtrip (p : ProgramType) :
    validateProgram (some (programToString p)) = p := by
  cases p <;> decide

theorem validateStatus_roundtrip (s : Option ActivityStatus) :
    validateStatus (s.map statusToString) = s.getD .active := by
  cases s with
  | none => decide
  | some st => cases st <;> decide

/-- Sanitizing the serialized form of a well-formed state activity gives
back an equivalent activity. -/
theorem sanitize_rawOfActivity (fresh today : String) (a : ActivityRange)
    (hid : a.id ≠ "") (htitle : a.title ≠ "") (hstart : a.startDate ≠ "")
    (hend : a.endDate ≠ "") :
    activityEquivB (sanitizeActivity fresh today (rawOfActivity a)) a = true := by
  simp only [activityEquivB, sanitizeActivity, rawOfActivity, jsOr]
  simp [hid, htitle, hstart, hend, validateProgram_roundtrip, validateStatus_roundtrip]

theorem sanitize_list (today : String) :
    ∀ (l : List ActivityRange) (freshIds : Nat → String),
      (∀ a ∈ l, a.id ≠ "" ∧ a.title ≠ "" ∧ a.startDate ≠ "" ∧ a.endDate ≠ "") →
      activityListEquiv
        ((l.map rawOfActivity).mapIdx (fun i r => sanitizeActivity (freshIds i) today r))
        l = true := by
  intro l
  induction l with
  | nil => intro f _; rfl
  | cons a as ih =>
    intro f h
    rw [List.map_cons, List.mapIdx_cons]
    show (activityEquivB (sanitizeActivity (f 0) today (rawOfActivity a)) a &&
      activityListEquiv
        ((as.map rawOfActivity).mapIdx fun i r => sanitizeActivity (f (i + 1)) today r)
        as) = true
    obtain ⟨h1, h2, h3, h4⟩ := h a (by simp)
    rw [sanitize_rawOfActivity (f 0) today a h1 h2 h3 h4,
      ih (fun i => f (i + 1)) (fun b hb => h b (by simp [hb]))]
    rfl

/-- C1. Serializing a state (all of whose activities have non-empty
id, title, startDate and endDate, as the data model requires) with
`ExportService.toJSON` and importing the result with
`ImportService.fromJSON` succeeds and reproduces an equivalent activity
list: same titles, startDate, endDate, program and status for every
activity, ids preserved; and an activity record whose id is omitted gets
the freshly generated id. -/
theorem claim_c1_json_round_trip (freshIds : Nat → String) (today : String)
    (state : CalendarState)
    (hwf : ∀ a ∈ state.activities,
      a.id ≠ "" ∧ a.title ≠ "" ∧ a.startDate ≠ "" ∧ a.endDate ≠ "") :
    (jsonRoundTrip freshIds today state).success = true ∧
    activityListEquiv (importedActivities (jsonRoundTrip freshIds today state))
      state.activities = true ∧
    (∀ (fresh today2 : String) (raw : RawActivity),
      raw.id = none ∨ raw.id = some "" →
      (sanitizeActivity fresh today2 raw).id = fresh) := by
  have hjrt : jsonRoundTrip freshIds today state
      = { success := true
          message := "JSON procesado: "
            ++ natToString ((state.activities.map rawOfActivity).mapIdx
                (fun i a => sanitizeActivity (freshIds i) today a)).length
            ++ " actividades encontradas."
          data := some
            { config := some state.config
              categories := some state.categories
              activities := (state.activities.map rawOfActivity).mapIdx
                (fun i a => sanitizeActivity (freshIds i) today a)
              dayStyles := some state.dayStyles } } := by
    unfold jsonRoundTrip fromJSON toJSONParsed
    simp
  refine ⟨?_, ?_, ?_⟩
  · rw [hjrt]
  · rw [hjrt]
    unfold importedActivities
    simp only [Option.map_some, Option.getD_some]
    exact sanitize_list today state.activities freshIds hwf
  · intro fresh today2 raw h
    unfold sanitizeActivity
    rcases h with h | h <;> simp [jsOr, h]

/-- Witness for C1: a concrete two-activity state round-trips. -/
theorem claim_c1_json_round_trip_witness :
    (jsonRoundTrip (fun _ => "fresh") "2026-01-01"
      ⟨⟨2026, "El Sistema"⟩, [⟨"cat1", "Conciertos", "#fff"⟩],
        [⟨"a1", "Ensayo", "2026-02-03", "2026-02-04", "#3b82f6", .orquesta,
          some "cat1", some .postponed, some true, some "desc"⟩,
         ⟨"a2", "Gala", "2026-03-05", "2026-03-05", "#3b82f6", .general,
          none, none, none, none⟩],
        [⟨"d1", "2026-01-06", none, some true⟩]⟩).success = true ∧
    activityListEquiv
      (importedActivities (jsonRoundTrip (fun _ => "fresh") "2026-01-01"
        ⟨⟨2026, "El Sistema"⟩, [⟨"cat1", "Conciertos", "#fff"⟩],
          [⟨"a1", "Ensayo", "2026-02-03", "2026-02-04", "#3b82f6", .orquesta,
            some "cat1", some .postponed, some true, some "desc"⟩,
           ⟨"a2", "Gala", "2026-03-05", "2026-03-05", "#3b82f6", .general,
            none, none, none, none⟩],
          [⟨"d1", "2026-01-06", none, some true⟩]⟩))
      [⟨"a1", "Ensayo", "2026-02-03", "2026-02-04", "#3b82f6", .orquesta,
        some "cat1", some .postponed, some true, some "desc"⟩,
       ⟨"a2", "Gala", "2026-03-05", "2026-03-05", "#3b82f6", .general,
        none, none, none, none⟩] = true := by
  have h := claim_c1_json_round_trip (fun _ => "fresh") "2026-01-01"
    ⟨⟨2026, "El Sistema"⟩, [⟨"cat1", "Conciertos", "#fff"⟩],
      [⟨"a1", "Ensayo", "2026-02-03", "2026-02-04", "#3b82f6", .orquesta,
        some "cat1", some .postponed, some true, some "desc"⟩,
       ⟨"a2", "Gala", "2026-03-05", "2026-03-05", "#3b82f6", .general,
        none, none, none, none⟩],
      [⟨"d1", "2026-01-06", none, some true⟩]⟩
    (by decide)
  exact ⟨h.1, h.2.1⟩

example : (parseCSVLine "a,\"b,c\",\"d\"\"e\"" ',') = ["a", "b,c", "d\"e"] := by decide

theorem csvAux_dquote (delim : Char) (rest cur : List Char) (acc : List String) :
    csvAux delim ('"' :: '"' :: rest) true cur acc
      = csvAux delim rest true ('"' :: cur) acc := rfl

theorem csvAux_quote_close (delim : Char) (rest cur : List Char) (acc : List String)
    (h : rest.head? ≠ some '"') :
    csvAux delim ('"' :: rest) true cur acc = csvAux delim rest false cur acc := by
  cases rest with
  | nil => rfl
  | cons r rs =>
    have hr : r ≠ '"' := by simpa using h
    simp [csvAux, hr]

theorem csvAux_quote_open (delim : Char) (rest cur : List Char) (acc : List String) :
    csvAux delim ('"' :: rest) false cur acc = csvAux delim rest true cur acc := by
  cases rest with
  | nil => rfl
  | cons r rs =>
    by_cases hr : r = '"'
    · subst hr; rfl
    · simp [csvAux, hr]

theorem csvAux_other (delim c : Char) (rest cur : List Char) (acc : List String)
    (inQ : Bool) (hc : c ≠ '"') :
    csvAux delim (c :: rest) inQ cur acc
      = if c = delim ∧ inQ = false then csvAux delim rest inQ [] (mkField cur :: acc)
        else csvAux delim rest inQ (c :: cur) acc := by
  simp [csvAux, hc]

theorem mk_toList (s : String) : String.mk s.toList = s := rfl

theorem escChars_eq (c : Char) (f : List Char) :
    escChars (c :: f) = if c = '"' then '"' :: '"' :: escChars f else c :: escChars f := by
  rw [escChars]

theorem csvAux_scan_escaped (delim : Char) :
    ∀ (f rest cur : List Char) (acc : List String), rest.head? ≠ some '"' →
      csvAux delim (escChars f ++ '"' :: rest) true cur acc
        = csvAux delim rest false (f.reverse ++ cur) acc := by
  intro f
  induction f with
  | nil =>
    intro rest cur acc hrest
    show csvAux delim ('"' :: rest) true cur acc = csvAux delim rest false cur acc
    exact csvAux_quote_close delim rest cur acc hrest
  | cons c f ih =>
    intro rest cur acc hrest
    rw [escChars_eq]
    by_cases hc : c = '"'
    · subst hc
      rw [if_pos rfl]
      show csvAux delim ('"' :: '"' :: (escChars f ++ '"' :: rest)) true cur acc = _
      rw [csvAux_dquote, ih rest ('"' :: cur) acc hrest]
      simp
    · rw [if_neg hc]
      show csvAux delim (c :: (escChars f ++ '"' :: rest)) true cur acc = _
      rw [csvAux_other delim c _ cur acc true hc]
      rw [if_neg (by simp)]
      rw [ih rest (c :: cur) acc hrest]
      simp

theorem csvAux_scan_raw (delim : Char) :
    ∀ (f rest cur : List Char) (acc : List String),
      (∀ c ∈ f, c ≠ '"' ∧ c ≠ delim) →
      csvAux delim (f ++ rest) false cur acc
        = csvAux delim rest false (f.reverse ++ cur) acc := by
  intro f
  induction f with
  | nil => intro rest cur acc _; simp
  | cons c f ih =>
    intro rest cur acc h
    obtain ⟨hq, hd⟩ := h c (by simp)
    rw [List.cons_append, csvAux_other delim c _ cur acc false hq]
    rw [if_neg (by simp [hd])]
    rw [ih rest (c :: cur) acc (fun d hdm => h d (by simp [hdm]))]
    simp

theorem csvAux_delim_step (delim : Char) (rest cur : List Char) (acc : List String)
    (hdq : delim ≠ '"') :
    csvAux delim (delim :: rest) false cur acc
      = csvAux delim rest false [] (mkField cur :: acc) := by
  rw [csvAux_other delim delim rest cur acc false hdq]
  rw [if_pos ⟨rfl, rfl⟩]

/-- A delimited row built from tagged columns: quoted columns go through
`quoteField`, raw columns are emitted as they are. -/
def buildRow (delim : Char) (cols : List (Bool × String)) : String :=
  joinDelim delim (cols.map (fun p => if p.1 then quoteField p.2 else p.2))

theorem mkField_reverse (f : String) : mkField f.toList.reverse = jsTrim f := by
  unfold mkField
  rw [List.reverse_reverse, mk_toList]

/-- Scanning a built row from outside quotes tokenizes it back to the
trimmed column values, provided raw columns contain neither quotes nor
the delimiter. -/
theorem csvAux_buildRow (delim : Char) (hdq : delim ≠ '"') :
    ∀ (cols : List (Bool × String)), cols ≠ [] →
      (∀ p ∈ cols, p.1 = false → ∀ c ∈ p.2.toList, c ≠ '"' ∧ c ≠ delim) →
      ∀ acc, csvAux delim (buildRow delim cols).toList false [] acc
        = acc.reverse ++ cols.map (fun p => jsTrim p.2) := by
  intro cols
  induction cols with
  | nil => intro h; exact absurd rfl h
  | cons p cols ih =>
    intro _ hraw acc
    rcases cols with _ | ⟨q, cols'⟩
    · -- single column
      rcases p with ⟨quoted, f⟩
      cases quoted with
      | true =>
        show csvAux delim (quoteField f).toList false [] acc = _
        show csvAux delim ('"' :: (escChars f.toList ++ ['"'])) false [] acc = _
        rw [csvAux_quote_open]
        rw [show (['"'] : List Char) = '"' :: [] from rfl]
        rw [csvAux_scan_escaped delim f.toList [] [] acc (by simp)]
        show (mkField (f.toList.reverse ++ []) :: acc).reverse = _
        rw [List.append_nil, mkField_reverse]
        simp
      | false =>
        show csvAux delim f.toList false [] acc = _
        rw [show f.toList = f.toList ++ [] by simp]
        rw [csvAux_scan_raw delim f.toList [] [] acc
          (hraw ⟨false, f⟩ (by simp) rfl)]
        show (mkField (f.toList.reverse ++ []) :: acc).reverse = _
        rw [List.append_nil, mkField_reverse]
        simp
    · -- at least two columns
      have hjoin : buildRow delim (p :: q :: cols')
          = (if p.1 then quoteField p.2 else p.2) ++ String.mk [delim]
            ++ buildRow delim (q :: cols') := by
        unfold buildRow
        rw [List.map_cons, List.map_cons, joinDelim]
      rcases p with ⟨quoted, f⟩
      have htail : ∀ acc2, csvAux delim (buildRow delim (q :: cols')).toList false [] acc2
          = acc2.reverse ++ (q :: cols').map (fun p => jsTrim p.2) :=
        ih (by simp) (fun r hr => hraw r (by simp [hr]))
      cases quoted with
      | true =>
        rw [hjoin]
        rw [toList_append, toList_append]
        show csvAux delim (('"' :: (escChars f.toList ++ ['"'])) ++ [delim]
          ++ (buildRow delim (q :: cols')).toList) false [] acc = _
        rw [show ('"' :: (escChars f.toList ++ ['"'])) ++ [delim]
            ++ (buildRow delim (q :: cols')).toList
          = '"' :: (escChars f.toList
            ++ '"' :: delim :: (buildRow delim (q :: cols')).toList) by simp]
        rw [csvAux_quote_open]
        rw [csvAux_scan_escaped delim f.toList
          (delim :: (buildRow delim (q :: cols')).toList) [] acc
          (by simp [hdq])]
        rw [csvAux_delim_step delim _ _ acc hdq]
        rw [List.append_nil, mkField_reverse, htail]
        simp
      | false =>
        rw [hjoin]
        rw [toList_append, toList_append]
        show csvAux delim (f.toList ++ [delim]
          ++ (buildRow delim (q :: cols')).toList) false [] acc = _
        rw [show f.toList ++ [delim] ++ (buildRow delim (q :: cols')).toList
          = f.toList ++ (delim :: (buildRow delim (q :: cols')).toList) by simp]
        rw [csvAux_scan_raw delim f.toList _ [] acc
          (hraw ⟨false, f⟩ (by simp) rfl)]
        rw [csvAux_delim_step delim _ _ acc hdq]
        rw [List.append_nil, mkField_reverse, htail]
        simp

/-! ## Claim C5: tokenizer round trip for quoted fields -/

/-- C5 counterexample. The sequence of fields consisting of the single
field " a" (leading space) does not survive the quote-join-tokenize round
trip: `parseCSVLine` trims every field it emits, returning ["a"]. -/
theorem claim_c5_counterexample :
    parseCSVLine (joinDelim ',' ([" a"].map quoteField)) ',' = ["a"] ∧
    parseCSVLine (joinDelim ',' ([" a"].map quoteField)) ',' ≠ [" a"] := by
  constructor
  · decide
  · decide

/-- C5 amended. For every non-empty sequence of fields none of which
carries leading or trailing whitespace, quoting each field (double quotes,
internal quotes doubled), joining with either delimiter, and tokenizing
with `parseCSVLine` reproduces the fields exactly — including fields with
embedded delimiters and quotes. In general the round trip returns each
field trimmed. -/
theorem claim_c5_amended_round_trip (delim : Char) (fields : List String)
    (hdelim : delim = ',' ∨ delim = ';') (hne : fields ≠ [])
    (htrim : ∀ f ∈ fields, jsTrim f = f) :
    parseCSVLine (joinDelim delim (fields.map quoteField)) delim = fields := by
  have hdq : delim ≠ '"' := by rcases hdelim with rfl | rfl <;> decide
  have hcols : joinDelim delim (fields.map quoteField)
      = buildRow delim (fields.map (fun f => (true, f))) := by
    unfold buildRow
    rw [List.map_map]
    rfl
  unfold parseCSVLine
  rw [hcols]
  rw [csvAux_buildRow delim hdq (fields.map (fun f => (true, f)))
    (by simp [hne]) (by simp) []]
  rw [List.map_map]
  show fields.map (fun f => jsTrim f) = fields
  rw [List.map_congr_left htrim]
  simp

/-- Witness for C5 amended: fields with an embedded delimiter, an embedded
quote, and an empty field round-trip through comma-joining. -/
theorem claim_c5_amended_round_trip_witness :
    parseCSVLine (joinDelim ',' (["a,b", "c\"d", ""].map quoteField)) ','
      = ["a,b", "c\"d", ""] :=
  claim_c5_amended_round_trip ',' ["a,b", "c\"d", ""] (by left; rfl)
    (by decide) (by decide)

/-! ## Claim C7: quoting in the delimited-text export -/

/-- The ten raw column values of a data row, before any quoting. -/
def rawCsvValues (state : CalendarState) (a : ActivityRange) : List String :=
  [a.id,
   jsOr (some a.title) "",
   a.startDate,
   a.endDate,
   programToString a.program,
   jsOr a.categoryId "",
   categoryNameOf state a,
   statusToString (a.status.getD .active),
   (if a.completed.getD false then "true" else "false"),
   jsOr a.description ""]

/-- C7 counterexample. The claim says each of the ten field values of
a data row is double-quoted. On a plain one-activity state the emitted row
is not the row obtained by quoting all ten values: only `title`,
`categoryName` and `description` are quoted; `id`, the dates, `program`,
`categoryId`, `status` and `completed` are emitted raw. -/
theorem claim_c7_counterexample :
    csvRow ⟨⟨2026, "X"⟩, [], [], []⟩
        ⟨"a1", "Ensayo", "2026-02-03", "2026-02-04", "#3b82f6", .orquesta,
          none, some .active, some false, some ""⟩
      ≠ joinDelim ','
        ((rawCsvValues ⟨⟨2026, "X"⟩, [], [], []⟩
          ⟨"a1", "Ensayo", "2026-02-03", "2026-02-04", "#3b82f6", .orquesta,
            none, some .active, some false, some ""⟩).map quoteField) := by
  decide

theorem programToString_clean (p : ProgramType) :
    (∀ c ∈ (programToString p).toList, c ≠ '"' ∧ c ≠ ',') ∧
    jsTrim (programToString p) = programToString p := by
  cases p <;> exact ⟨by decide, by decide⟩

theorem statusToString_clean (s : ActivityStatus) :
    (∀ c ∈ (statusToString s).toList, c ≠ '"' ∧ c ≠ ',') ∧
    jsTrim (statusToString s) = statusToString s := by
  cases s <;> exact ⟨by decide, by decide⟩

/-- A raw (unquoted) column value that survives tokenization: no quote
character, no comma, and no surrounding whitespace. -/
def rawFieldOK (f : String) : Prop :=
  (∀ c ∈ f.toList, c ≠ '"' ∧ c ≠ ',') ∧ jsTrim f = f

/-- C7 amended. In a data row of `ExportService.toCSV` only the three
free-text columns (`title`, `categoryName`, `description`) are
double-quoted with internal quotes doubled; the other seven columns are
emitted raw. The row still round-trips through the §4.2 tokenizer
provided the raw columns contain no quote or comma characters and no
column carries surrounding whitespace: tokenizing the emitted row yields
exactly the ten raw column values. -/
theorem claim_c7_amended_row_round_trip (state : CalendarState) (a : ActivityRange)
    (hid : rawFieldOK a.id) (hstart : rawFieldOK a.startDate)
    (hend : rawFieldOK a.endDate) (hcat : rawFieldOK (jsOr a.categoryId ""))
    (htitle : jsTrim a.title = a.title)
    (hcatname : jsTrim (categoryNameOf state a) = categoryNameOf state a)
    (hdesc : jsTrim (jsOr a.description "") = jsOr a.description "") :
    parseCSVLine (csvRow state a) ',' = rawCsvValues state a := by
  have hrow : csvRow state a = buildRow ','
      [(false, a.id),
       (true, jsOr (some a.title) ""),
       (false, a.startDate),
       (false, a.endDate),
       (false, programToString a.program),
       (false, jsOr a.categoryId ""),
       (true, categoryNameOf state a),
       (false, statusToString (a.status.getD .active)),
       (false, (if a.completed.getD false then "true" else "false")),
       (true, jsOr a.description "")] := by
    unfold csvRow buildRow
    simp
  have hcompleted : (∀ c ∈ (if a.completed.getD false then "true"
      else "false").toList, c ≠ '"' ∧ c ≠ ',') ∧
      jsTrim (if a.completed.getD false then "true" else "false")
        = (if a.completed.getD false then "true" else "false") := by
    cases a.completed.getD false <;> exact ⟨by decide, by decide⟩
  have htitle2 : jsOr (some a.title) "" = a.title := by
    simp only [jsOr]
    by_cases ht : a.title = ""
    · rw [if_pos ht, ht]
    · rw [if_neg ht]
  unfold parseCSVLine
  rw [hrow]
  rw [csvAux_buildRow ',' (by decide) _ (by simp) ?hraw []]
  case hraw =>
    intro p hp hfalse
    simp at hp
    rcases hp with hp | hp | hp | hp | hp | hp | hp | hp | hp | hp <;> subst hp
    · exact hid.1
    · simp at hfalse
    · exact hstart.1
    · exact hend.1
    · exact (programToString_clean a.program).1
    · exact hcat.1
    · simp at hfalse
    · exact (statusToString_clean (a.status.getD .active)).1
    · exact hcompleted.1
    · simp at hfalse
  unfold rawCsvValues
  simp only [List.map_cons, List.map_nil, List.nil_append]
  rw [hid.2, hstart.2, hend.2, (programToString_clean a.program).2, hcat.2,
    hcatname, (statusToString_clean (a.status.getD .active)).2, hcompleted.2,
    hdesc]
  rw [htitle2, htitle]
  simp

/-- Witness for C7 amended: a concrete row with an embedded comma in the
description round-trips to its ten raw values. -/
theorem claim_c7_amended_row_round_trip_witness :
    parseCSVLine (csvRow ⟨⟨2026, "X"⟩, [⟨"cat1", "Conciertos", "#fff"⟩], [], []⟩
        ⟨"a1", "Ensayo General", "2026-02-03", "2026-02-04", "#3b82f6", .coroInfantil,
          some "cat1", some .postponed, some true, some "gala, con coro"⟩) ','
      = ["a1", "Ensayo General", "2026-02-03", "2026-02-04", "Coro Infantil",
         "cat1", "Conciertos", "postponed", "true", "gala, con coro"] := by
  have h := claim_c7_amended_row_round_trip
    ⟨⟨2026, "X"⟩, [⟨"cat1", "Conciertos", "#fff"⟩], [], []⟩
    ⟨"a1", "Ensayo General", "2026-02-03", "2026-02-04", "#3b82f6", .coroInfantil,
      some "cat1", some .postponed, some true, some "gala, con coro"⟩
    (by constructor <;> decide) (by constructor <;> decide)
    (by constructor <;> decide) (by constructor <;> decide)
    (by decide) (by decide) (by decide)
  rw [h]
  decide

/-! ## Claim C4: the endDate >= startDate invariant -/

/-- Does an activity record satisfy the endDate >= startDate invariant
(both dates parsing and in order)? -/
def endInvariantB (a : ActivityRange) : Bool :=
  match parseSafeDate a.startDate, parseSafeDate a.endDate with
  | some s, some e => dateLe s e
  | _, _ => false

theorem jsDateFromParts_valid {p1 p2 p3 : Nat} {d : SimpleDate}
    (h : jsDateFromParts p1 p2 p3 = some d) :
    validDate d.year d.month d.day = true := by
  unfold jsDateFromParts at h
  split_ifs at h with h31 hc1 hmf hc2 <;>
  first
  | exact Option.noConfusion h
  | · rw [Option.some.injEq] at h
      subst h
      unfold validDate
      simp only [Bool.and_eq_true, decide_eq_true_eq] at *
      omega

theorem jsDateFromString_valid {s : String} {d : SimpleDate}
    (h : jsDateFromString s = some d) :
    validDate d.year d.month d.day = true := by
  unfold jsDateFromString at h
  split at h
  · split_ifs at h with hdig
    exact jsDateFromParts_valid h
  · exact Option.noConfusion h

theorem manualResolve_year {p1 p2 p3 y m d : Nat}
    (h : manualResolve p1 p2 p3 = some (y, m, d)) : 1000 < y := by
  unfold manualResolve at h
  split_ifs at h with h1 h2 h3 h4 <;>
    rw [Option.some.injEq, Prod.mk.injEq, Prod.mk.injEq] at h <;> omega

theorem manualFromParts_valid {p1 p2 p3 : Nat} {d : SimpleDate}
    (h : manualFromParts p1 p2 p3 = some d) :
    validDate d.year d.month d.day = true ∧ 1000 < d.year := by
  unfold manualFromParts at h
  split at h
  · rename_i y m dd heq
    split_ifs at h with hrt
    · rw [Option.some.injEq] at h
      subst h
      unfold mkDateRoundTrips at hrt
      simp only [Bool.and_eq_true, decide_eq_true_eq] at hrt
      exact ⟨hrt.2, manualResolve_year heq⟩
  · exact Option.noConfusion h

/-- Every date `parseFlexibleDate` returns is a real calendar date with a
year above 1000. -/
theorem parseFlexibleDate_valid {s : String} {d : SimpleDate}
    (h : parseFlexibleDate s = some d) :
    validDate d.year d.month d.day = true ∧ 1000 < d.year := by
  unfold parseFlexibleDate at h
  simp only [] at h
  by_cases hempty : jsTrim s = ""
  · rw [if_pos hempty] at h
    exact Option.noConfusion h
  · rw [if_neg hempty] at h
    split at h
    · rename_i dd hdirect
      rw [Option.some.injEq] at h
      subst h
      split at hdirect
      · rename_i d2 hjs
        split_ifs at hdirect with hyr
        rw [Option.some.injEq] at hdirect
        subst hdirect
        exact ⟨jsDateFromString_valid hjs, hyr⟩
      · exact Option.noConfusion hdirect
    · split at h
      · exact manualFromParts_valid h
      · exact Option.noConfusion h

theorem dateLe_refl (d : SimpleDate) : dateLe d d = true := by
  unfold dateLe
  simp

theorem dateLe_of_not_lt {a b : SimpleDate} (h : dateLt a b = false) :
    dateLe b a = true := by
  unfold dateLt at h
  unfold dateLe
  simp at h ⊢
  omega

theorem endInvariantB_of (a : ActivityRange) (startDt endDt : SimpleDate)
    (h1 : a.startDate = formatDate startDt) (h2 : a.endDate = formatDate endDt)
    (hy1 : 999 < startDt.year) (hy2 : 999 < endDt.year)
    (hle : dateLe startDt endDt = true) : endInvariantB a = true := by
  unfold endInvariantB
  rw [h1, h2, parseSafeDate_formatDate startDt hy1, parseSafeDate_formatDate endDt hy2]
  exact hle

/-- Each activity a CSV row produces satisfies the clamped invariant. -/
theorem processRow_activities (c : CsvCtx) (i : Nat) (line : String) (st : CsvState) :
    ∀ act ∈ (processRow c i line st).activities,
      act ∈ st.activities ∨ endInvariantB act = true := by
  intro act hact
  unfold processRow at hact
  simp only [] at hact
  split_ifs at hact with hlen htitle
  · exact Or.inl hact
  · exact Or.inl hact
  · split at hact
    · exact Or.inl hact
    · rename_i startDt hstart
      simp only [List.mem_append, List.mem_singleton] at hact
      rcases hact with hact | hact
      · exact Or.inl hact
      · right
        subst hact
        obtain ⟨hsv, hsy⟩ := parseFlexibleDate_valid hstart
        set endDt0 := (match c.idxEnd with
          | some j => (parseFlexibleDate
              (rowField (parseCSVLine line c.delim) j)).getD startDt
          | none => startDt) with hend0
        have hey : 1000 < endDt0.year := by
          rw [hend0]
          rcases c.idxEnd with _ | j
          · exact hsy
          · rcases hpe : parseFlexibleDate
                (rowField (parseCSVLine line c.delim) j) with _ | ed
            · simpa [hpe] using hsy
            · simpa [hpe] using (parseFlexibleDate_valid hpe).2
        by_cases hclamp : dateLt endDt0 startDt = true
        · refine endInvariantB_of _ startDt startDt rfl ?_ (by omega) (by omega)
            (dateLe_refl startDt)
          simp [hclamp]
        · have hclamp2 : dateLt endDt0 startDt = false := by
            simpa using hclamp
          refine endInvariantB_of _ startDt endDt0 rfl ?_ (by omega) (by omega)
            (dateLe_of_not_lt hclamp2)
          simp [hclamp2]

theorem processRows_activities (c : CsvCtx) :
    ∀ (rows : List String) (i : Nat) (st : CsvState),
      (∀ a ∈ st.activities, endInvariantB a = true) →
      ∀ a ∈ (processRows c i rows st).activities, endInvariantB a = true := by
  intro rows
  induction rows with
  | nil => intro i st hst a ha; exact hst a ha
  | cons l rest ih =>
    intro i st hst a ha
    rw [processRows] at ha
    refine ih (i + 1) (processRow c i l st) ?_ a ha
    intro b hb
    rcases processRow_activities c i l st b hb with hmem | hinv
    · exact hst b hmem
    · exact hinv

/-- C4 amended. Every activity produced by `ImportService.fromCSV`
satisfies the invariant endDate >= startDate: when a row's parsed end
date precedes its start date, the import clamps the end date to the start
date (and records a warning). The JSON path does not enforce this — see
the counterexample. -/
theorem claim_c4_amended_csv_clamps (freshIds : Nat → String) (content : String)
    (cats : List Category) (act : ActivityRange)
    (hmem : act ∈ importedActivities (fromCSV freshIds content cats)) :
    endInvariantB act = true := by
  unfold fromCSV at hmem
  simp only [] at hmem
  split at hmem
  · simp [importedActivities] at hmem
  · split at hmem
    · rename_i iT iS hT hS
      simp only [importedActivities, Option.map_some, Option.getD_some] at hmem
      exact processRows_activities _ _ 1 {} (by intro a ha; simp at ha) act hmem
    · simp [importedActivities] at hmem

/-- Witness for C4 amended: the spec's end-to-end scenario. The CSV row
with start 2026-05-10 and end 2026-05-05 produces exactly one warning
citing row 2, and the resulting activity has endDate = startDate =
2026-05-10; its invariant holds by the amended theorem. -/
theorem claim_c4_amended_csv_clamps_witness :
    (fromCSV (fun i => "id" ++ natToString i)
        "Titulo,Inicio,Fin\nEnsayo,2026-05-10,2026-05-05" []).warnings
      = some ["Fila 2: La fecha de fin era anterior al inicio. Se ajustó a la misma fecha."] ∧
    (importedActivities (fromCSV (fun i => "id" ++ natToString i)
        "Titulo,Inicio,Fin\nEnsayo,2026-05-10,2026-05-05" [])).map ActivityRange.startDate
      = ["2026-05-10"] ∧
    (importedActivities (fromCSV (fun i => "id" ++ natToString i)
        "Titulo,Inicio,Fin\nEnsayo,2026-05-10,2026-05-05" [])).map ActivityRange.endDate
      = ["2026-05-10"] ∧
    endInvariantB
      { id := "id1", title := "Ensayo", startDate := "2026-05-10",
        endDate := "2026-05-10", color := "#3b82f6", program := .general,
        categoryId := none, status := some .active, completed := some false,
        description := some "" } = true := by
  refine ⟨by decide, by decide, by decide, ?_⟩
  exact claim_c4_amended_csv_clamps (fun i => "id" ++ natToString i)
    "Titulo,Inicio,Fin\nEnsayo,2026-05-10,2026-05-05" []
    { id := "id1", title := "Ensayo", startDate := "2026-05-10",
      endDate := "2026-05-10", color := "#3b82f6", program := .general,
      categoryId := none, status := some .active, completed := some false,
      description := some "" }
    (by decide)

/-- A parsed JSON import document holding one activity whose end date
precedes its start date. -/
def c4RawJson : ParsedJson :=
  { data := none
    top :=
      { activities := some
          [{ id := some "a1"
             title := some "X"
             startDate := some "2026-05-10"
             endDate := some "2026-05-05" }] } }

/-- C4 counterexample. The claim also covers JSON import via
`sanitizeActivity`, but that path never clamps: a JSON record with
end 2026-05-05 before start 2026-05-10 imports unchanged, the invariant
is violated, and no warnings field is produced at all. -/
theorem claim_c4_counterexample :
    (importedActivities (fromJSON (fun _ => "f") "2026-01-01" (some c4RawJson)
        [])).map (fun a => (a.startDate, a.endDate))
      = [("2026-05-10", "2026-05-05")] ∧
    (∃ act ∈ importedActivities (fromJSON (fun _ => "f") "2026-01-01"
        (some c4RawJson) []), endInvariantB act = false) ∧
    (fromJSON (fun _ => "f") "2026-01-01" (some c4RawJson) []).warnings = none := by
  refine ⟨by decide, ?_, by decide⟩
  decide

/-! ## Claim C8: failed imports and partial data -/

/-- C8 counterexample. A CSV whose only data row is skipped (blank
title) fails with success = false, yet the result still carries a `data`
field (holding an empty activities list) — the claim says a failed result
carries no data field at all. -/
theorem claim_c8_counterexample :
    (fromCSV (fun _ => "f") "Titulo,Fecha\n,2026-01-01" []).success = false ∧
    (fromCSV (fun _ => "f") "Titulo,Fecha\n,2026-01-01" []).data ≠ none ∧
    (fromCSV (fun _ => "f") "Titulo,Fecha\n,2026-01-01" []).data
      = some { activities := [] } := by
  refine ⟨by decide, by decide, by decide⟩

/-- Shape of every `fromJSON` result: a no-data failure with a non-empty
message, or a success. -/
theorem fromJSON_cases (freshIds : Nat → String) (today : String)
    (parsed : Option ParsedJson) (cats : List Category) :
    (∃ msg errs, fromJSON freshIds today parsed cats
        = { success := false, message := msg, data := none,
            warnings := none, errors := errs }
      ∧ msg ≠ "") ∨
    (fromJSON freshIds today parsed cats).success = true := by
  unfold fromJSON
  rcases parsed with _ | pj
  · exact Or.inl ⟨_, _, rfl, by decide⟩
  · simp only []
    split_ifs with hkeys
    · exact Or.inl ⟨_, _, rfl, by decide⟩
    · exact Or.inr rfl

/-- Shape of every `fromCSV` result: a no-data failure with a non-empty
message, or the loop outcome with its accumulated state. -/
theorem fromCSV_cases (freshIds : Nat → String) (content : String)
    (cats : List Category) :
    (∃ msg, fromCSV freshIds content cats
        = { success := false, message := msg, data := none,
            warnings := none, errors := none }
      ∧ msg ≠ "") ∨
    (∃ st : CsvState,
      fromCSV freshIds content cats
        = { success := decide (0 < st.activities.length)
            message := if 0 < st.activities.length then
                "CSV procesado: " ++ natToString st.activities.length
                  ++ " actividades encontradas."
              else "No se pudieron procesar actividades válidas del CSV."
            data := some { activities := st.activities }
            warnings := some st.warnings
            errors := some st.errors }) := by
  unfold fromCSV
  simp only []
  split
  · exact Or.inl ⟨_, rfl, by decide⟩
  · split
    · exact Or.inr ⟨_, rfl⟩
    · exact Or.inl ⟨_, rfl, by decide⟩

/-- C8 amended. Whenever `fromJSON` returns success = false (parse
exception or missing activities/categories keys), the result carries no
data and a non-empty message. Whenever `fromCSV` returns success = false,
the result carries either no data (insufficient lines, missing critical
columns) or a data field holding an *empty* activities list (the
no-processable-rows outcome) — never partial activities — and a non-empty
message. -/
theorem claim_c8_amended_failures (freshIds : Nat → String) (today : String) :
    (∀ (parsed : Option ParsedJson) (cats : List Category),
      (fromJSON freshIds today parsed cats).success = false →
      (fromJSON freshIds today parsed cats).data = none ∧
      (fromJSON freshIds today parsed cats).message ≠ "") ∧
    (∀ (content : String) (cats : List Category),
      (fromCSV freshIds content cats).success = false →
      ((fromCSV freshIds content cats).data = none ∨
        (fromCSV freshIds content cats).data = some { activities := [] }) ∧
      (fromCSV freshIds content cats).message ≠ "") := by
  constructor
  · intro parsed cats hfail
    rcases fromJSON_cases freshIds today parsed cats with ⟨msg, errs, hr, hmsg⟩ | hsucc
    · rw [hr]
      exact ⟨rfl, hmsg⟩
    · rw [hsucc] at hfail
      exact Bool.noConfusion hfail
  · intro content cats hfail
    rcases fromCSV_cases freshIds content cats with ⟨msg, hr, hmsg⟩ | ⟨st, hr⟩
    · rw [hr]
      exact ⟨Or.inl rfl, hmsg⟩
    · rw [hr] at hfail ⊢
      simp only [] at hfail
      rw [decide_eq_false_iff_not] at hfail
      have hzero : st.activities = [] := List.length_eq_zero.mp (by omega)
      rw [hzero]
      constructor
      · exact Or.inr rfl
      · show "No se pudieron procesar actividades válidas del CSV." ≠ ""
        decide

/-- Witness for C8 amended: the parse-exception JSON failure has no data
and a message; the no-processable-rows CSV failure keeps an empty
activities list. -/
theorem claim_c8_amended_failures_witness :
    ((fromJSON (fun _ => "f") "2026-01-01" none []).data = none ∧
     (fromJSON (fun _ => "f") "2026-01-01" none []).message ≠ "") ∧
    (((fromCSV (fun _ => "f") "Titulo,Fecha\nSinFecha," []).data = none ∨
      (fromCSV (fun _ => "f") "Titulo,Fecha\nSinFecha," []).data
        = some { activities := [] }) ∧
     (fromCSV (fun _ => "f") "Titulo,Fecha\nSinFecha," []).message ≠ "") := by
  constructor
  · exact (claim_c8_amended_failures (fun _ => "f") "2026-01-01").1 none [] (by decide)
  · exact (claim_c8_amended_failures (fun _ => "f") "2026-01-01").2
      "Titulo,Fecha\nSinFecha," [] (by decide)
